import Mathlib

/-!
# Verification of the tg-benchmark orchestration core

Shallow embedding of the orchestration control loop of the `tg-benchmark`
repository (multi-agent LLM benchmark harness) together with proofs about
the claims of its specification.

Conventions used throughout:

* Python floats that hold test success rates are modelled as `Rat`
  (they are always ratios `passed / total` or the sentinel `-1.0`).
* Calls to the external collaborators (the Ollama LLM and the subprocess
  test executor) are modelled by oracle streams: the k-th call of a kind
  receives the k-th entry of the corresponding stream.  Structured-output
  calls are modelled at the `pydantic.model_validate_json` boundary: the
  oracle directly yields `Option T`, `none` meaning that schema validation
  of the model output failed.
* Python exceptions are modelled with `Except PyError`; mutable objects are
  threaded explicitly.  The object store of `solution_search` is modelled
  as a function `Nat → Solution` indexed by the original position of each
  candidate, which reproduces Python's aliasing of `Solution` objects.
-/

namespace TgBench

/-- Python exception kinds that the embedded code can raise. -/
inductive PyError where
  | validationError
  | assertionError
  | developerGenerationError
  | valueError
  | indexError
deriving Repr, DecidableEq

/-! ## Data model (src/schemas, src/modules/schemas, src/modules/models.py) -/

/-- One entry of `Solution.solution_history` (a Python dict with keys
`role` and `content`). -/
structure HistEntry where
  role : String
  content : String
deriving Repr, DecidableEq

/-- `BaseSolution` from `src/schemas/solution.py`. -/
structure BaseSolution where
  context : String
  propose_solution : String
deriving Repr, DecidableEq

/-- `Solution` from `src/schemas/solution.py` (claim C5 cites lines 9-14):
`best_code` defaults to `""`, `success_rate` defaults to the sentinel
`-1.0`, `solution_history` defaults to `[]`. -/
structure Solution where
  context : String
  propose_solution : String
  best_code : String
  success_rate : Rat
  solution_history : List HistEntry
deriving Repr, DecidableEq

/-- `Solution(**base_solution.model_dump())`: building a `Solution` from a
`BaseSolution` fills the remaining fields with their declared defaults. -/
def Solution.ofBase (b : BaseSolution) : Solution :=
  { context := b.context
    propose_solution := b.propose_solution
    best_code := ""
    success_rate := -1
    solution_history := [] }

/-- The fields of `Task` (src/modules/schemas/task.py) that the
orchestration loop reads or writes.  `best_solution_rating` defaults
to `0.0`. -/
structure Task where
  definition : String
  function_name : String
  dod : String
  template : String
  best_solution : String
  best_solution_rating : Rat
  code : String
deriving Repr, DecidableEq

/-- A test case of a test suite (src/modules/models.py). -/
structure TestCase where
  inputs : String
  expected_output : String
deriving Repr, DecidableEq

/-- `TestSuiteComplete` (src/modules/schema/tests.py): the test cases, the
harness source `test_code_raw` containing the implementation placeholder,
and the name of the function under test. -/
structure TestSuiteComplete where
  test_cases : List TestCase
  test_code_raw : String
  function_name : String
deriving Repr, DecidableEq

/-- `Judgment` from `src/modules/agents/judge/__init__.py`. -/
structure Judgment where
  is_correct : Bool
  feedback : String
deriving Repr, DecidableEq

/-! ## Python string primitives

The repository manipulates LLM output with `in`, `str.lower`, `str.strip`,
`str.replace` and a few regular expressions.  These are embedded as
executable functions on `List Char`. -/

/-- Python's `\s` character class (ASCII whitespace as used by `str.strip`
and the `re` patterns of the repository). -/
def isPyWhitespace (c : Char) : Bool :=
  c = ' ' || c = '\t' || c = '\n' || c = '\r' || c = '\x0b' || c = '\x0c'

/-- `p` is literally the first part of `l` (case sensitive). -/
def startsWithChars : List Char → List Char → Bool
  | [], _ => true
  | _ :: _, [] => false
  | a :: p, b :: l => a = b && startsWithChars p l

/-- Python `pat in s` on character lists. -/
def containsChars : List Char → List Char → Bool
  | [], p => p.isEmpty
  | l@(_ :: t), p => startsWithChars p l || containsChars t p

/-- Python `pat in s`. -/
def pyContains (s pat : String) : Bool :=
  containsChars s.data pat.data

/-- Python `s.lower()` (ASCII). -/
def pyLower (s : String) : String :=
  String.mk (s.data.map Char.toLower)

/-- Python `s.strip()`. -/
def pyStripChars (l : List Char) : List Char :=
  ((l.dropWhile isPyWhitespace).reverse.dropWhile isPyWhitespace).reverse

/-- `p` matches at the head of `l` when both are compared
case-insensitively (ASCII), as under `re.IGNORECASE`. -/
def ciStartsWith : List Char → List Char → Bool
  | [], _ => true
  | _ :: _, [] => false
  | a :: p, b :: l => a.toLower = b.toLower && ciStartsWith p l

/-- The characters of `l` that precede the first (case-insensitive)
occurrence of `pat`; `none` when `pat` does not occur. -/
def takeUntilCI (pat : List Char) : List Char → Option (List Char)
  | [] => if pat.isEmpty then some [] else none
  | l@(c :: t) =>
    if ciStartsWith pat l then some []
    else (takeUntilCI pat t).map (fun r => c :: r)

/-- Leftmost match of the pattern `open … close` with a lazy body, as
found by `re.search(r"<tag>\s*(.*?)\s*</tag>", s, re.DOTALL |
re.IGNORECASE)`: the first position where `openTag` matches
case-insensitively and `closeTag` occurs somewhere after it; the body runs
to the first such `closeTag`. -/
def findTagBody (openTag closeTag : List Char) : List Char → Option (List Char)
  | [] => none
  | l@(_ :: t) =>
    if ciStartsWith openTag l then
      match takeUntilCI closeTag (l.drop openTag.length) with
      | some body => some body
      | none => findTagBody openTag closeTag t
    else findTagBody openTag closeTag t

/-- `re.search` for the repository's `<tag>…</tag>` patterns followed by
`group(1).strip()`. -/
def searchTag (tag : String) (s : String) : Option String :=
  (findTagBody ("<" ++ tag ++ ">").data ("</" ++ tag ++ ">").data s.data).map
    (fun body => String.mk (pyStripChars body))

/-- Python `s.replace(pat, rep)` (all non-overlapping occurrences, left to
right); the fuel argument is the length of the remaining input, enough
because `pat` is non-empty whenever the branch that consumes it runs. -/
def pyReplaceAux (pat rep : List Char) : Nat → List Char → List Char
  | _, [] => []
  | 0, l => l
  | fuel + 1, l@(c :: t) =>
    if startsWithChars pat l then
      rep ++ pyReplaceAux pat rep fuel (l.drop pat.length)
    else
      c :: pyReplaceAux pat rep fuel t

/-- Python `s.replace(pat, rep)` for a non-empty `pat` (the repository only
replaces the non-empty implementation placeholder). -/
def pyReplace (s pat rep : String) : String :=
  if pat.data.isEmpty then s
  else String.mk (pyReplaceAux pat.data rep.data s.data.length s.data)

/-! ## Inference adapter (src/modules/ollama.py, `OllamaHandler.generate_response`)

The adapter sends the conversation to Ollama and returns the message
content; with a structured-output schema it additionally runs
`response_format.model_validate_json` on the content, which raises a
`pydantic.ValidationError` when the content does not validate.  The
model output is the `content` argument; `validate` is the outcome map of
`model_validate_json` for the requested schema. -/

/-- `ChatResponse` restricted to the field the orchestration core reads. -/
structure ChatResponse (α : Type) where
  response : α
deriving Repr, DecidableEq

/-- `generate_response(messages)` without a schema: the message content is
returned as plain text (lines 100, 106-113 of src/modules/ollama.py). -/
def generate_response_text (content : String) : ChatResponse String :=
  ⟨content⟩

/-- `generate_response(messages, response_format=T)` with a schema: line
104 of src/modules/ollama.py runs `T.model_validate_json(content)` with no
exception handler, so a failed validation propagates to the caller. -/
def generate_response_schema (α : Type) (validate : String → Option α)
    (content : String) : Except PyError (ChatResponse α) :=
  match validate content with
  | some v => .ok ⟨v⟩
  | none => .error .validationError

/-! ## Collaborator oracles and call counters

Each kind of collaborator interaction has its own stream; the k-th
interaction of a kind consumes index `k`.  `parseCode` abstracts the
developer-side static check `GeneratorCodeBaseModel.parse_code`
(syntax/type validation of a candidate response, returning the extracted
code on success). -/

/-- Oracle streams for every collaborator interaction of the
orchestration loop. -/
structure Oracles where
  /-- Success rate reported by the k-th `qa.run_tests` execution. -/
  testRate : Nat → Rat
  /-- Raw critique text of the k-th `judge.analyze_test_failures` call. -/
  critiqueText : Nat → String
  /-- `BaseSolution.model_validate_json` outcome of the secondary
  extraction inside the k-th `analyze_test_failures` call. -/
  critiqueExtract : Nat → Option BaseSolution
  /-- Raw LLM response of attempt `j` inside the k-th
  `dev.generate_solution_code` call. -/
  devText : Nat → Nat → String
  /-- Outcome of `Ellian.parse_code` on a candidate response. -/
  parseCode : String → Option String
  /-- Raw response of the k-th `judge.judge_solution` call. -/
  judgeText : Nat → String
  /-- `Judgment.model_validate_json` outcome of the secondary extraction
  inside the k-th `judge_solution` call. -/
  judgeExtract : Nat → Option Judgment

/-- Number of collaborator interactions performed so far, by kind. -/
structure Counters where
  tests : Nat
  critiques : Nat
  gens : Nat
  judgeSols : Nat
  judgeCodes : Nat
deriving Repr, DecidableEq

/-- The all-zero counter state. -/
def Counters.zero : Counters := ⟨0, 0, 0, 0, 0⟩

/-! ## Judge (src/modules/agents/judge/__init__.py, class `Will`) -/

/-- `Will.parse_judgment_response` (lines 30-52): regex extraction of the
`<feedback>`/`<is_correct>` pair; when either tag is missing, a dedicated
extraction call with `response_format=Judgment`, whose failed validation
propagates out of `generate_response`. -/
def parse_judgment_response (O : Oracles) (k : Nat) (responseText : String) :
    Except PyError Judgment :=
  match searchTag "feedback" responseText, searchTag "is_correct" responseText with
  | some fb, some ic =>
    let s := pyLower ic
    .ok ⟨s = "true" || s = "correct" || s = "pass", fb⟩
  | _, _ =>
    match O.judgeExtract k with
    | some j => .ok j
    | none => .error .validationError

/-- `Will.judge_solution` (lines 55-70): evaluate the proposed solution;
on a negative judgment append the feedback to the history. -/
def judge_solution (O : Oracles) (sol : Solution) (c : Counters) :
    Except PyError (Bool × Solution) × Counters :=
  let k := c.judgeSols
  let c := { c with judgeSols := c.judgeSols + 1 }
  match parse_judgment_response O k (O.judgeText k) with
  | .error e => (.error e, c)
  | .ok analysis =>
    let sol :=
      if analysis.is_correct then sol
      else { sol with solution_history :=
               sol.solution_history ++ [HistEntry.mk "judge" analysis.feedback] }
    (.ok (analysis.is_correct, sol), c)

/-- `Will.judge_code` (lines 72-86): the prompt reads
`solution_history[-1]` (an `IndexError` on an empty history); the LLM is
then called *without* `response_format`, so `response.response` is a
`str` and the `isinstance(response.response, Judgment)` assertion on line
81 always fails. -/
def judge_code (sol : Solution) (c : Counters) :
    Except PyError (Bool × Solution) × Counters :=
  match sol.solution_history.getLast? with
  | none => (.error .indexError, c)
  | some _ =>
    let c := { c with judgeCodes := c.judgeCodes + 1 }
    (.error .assertionError, c)

/-- `Will.analyze_test_failures` (lines 88-128): append the raw critique
to the history; extract `<context>`/`<propose_solution>`; on a failed
extraction run one secondary structured call with
`response_format=BaseSolution`, whose failed validation propagates as a
`ValidationError` (the `isinstance` assertion on line 125 is only reached
on successful validation). -/
def analyze_test_failures (O : Oracles) (sol : Solution) (c : Counters) :
    Except PyError Solution × Counters :=
  let k := c.critiques
  let c := { c with critiques := c.critiques + 1 }
  let resp := O.critiqueText k
  let sol := { sol with solution_history :=
                 sol.solution_history ++ [HistEntry.mk "judge" resp] }
  match searchTag "context" resp, searchTag "propose_solution" resp with
  | some newContext, some newPropose =>
    (.ok { sol with context := newContext, propose_solution := newPropose }, c)
  | _, _ =>
    match O.critiqueExtract k with
    | some bs =>
      (.ok { sol with context := bs.context, propose_solution := bs.propose_solution }, c)
    | none => (.error .validationError, c)

/-! ## Developer (src/modules/agents/developer/__init__.py, class `Ellian`) -/

/-- The `for _ in range(generation_retry_attempts)` loop of
`Ellian.generate_solution_code` (lines 39-52): attempt `j` of call `k`;
on a parseable response append the code as a `developer` history entry;
after exhausting the attempts raise `DeveloperGenerationError`. -/
def generation_attempts (O : Oracles) (k : Nat) (sol : Solution) :
    Nat → Nat → Except PyError Solution
  | _, 0 => .error .developerGenerationError
  | j, remaining + 1 =>
    match O.parseCode (O.devText k j) with
    | some code =>
      .ok { sol with solution_history :=
              sol.solution_history ++ [HistEntry.mk "developer" code] }
    | none => generation_attempts O k sol (j + 1) remaining

/-- `Ellian.generate_solution_code` (lines 33-52) with generation retry
budget `G` (`generation_retry_attempts`). -/
def generate_solution_code (O : Oracles) (G : Nat) (sol : Solution) (c : Counters) :
    Except PyError Solution × Counters :=
  (generation_attempts O c.gens sol 0 G, { c with gens := c.gens + 1 })

/-! ## Orchestrator (src/modules/agents/orchestrator.py, class `Vivi`) -/

/-- The best-tracking update of the repair loop: orchestrator.py lines
114-116 and 157-159, `if tests_result.success_rate >=
solution.success_rate: solution.success_rate = …; solution.best_code =
…`. -/
def updateBest (sol : Solution) (code : String) (r : Rat) : Solution :=
  if sol.success_rate ≤ r then
    { sol with success_rate := r, best_code := code }
  else sol

/-- Step 1 of `Vivi.solve_solution` (lines 139-140): at `judge_level ==
2` the proposed solution is judged first (the returned flag is not
branched on at this point). -/
def solve_solution_prejudge (O : Oracles) (judgeLevel : Nat) (sol : Solution)
    (c : Counters) : Except PyError Solution × Counters :=
  if judgeLevel = 2 then
    match judge_solution O sol c with
    | (.error e, c) => (.error e, c)
    | (.ok (_, sol), c) => (.ok sol, c)
  else (.ok sol, c)

/-- Step 3 of `Vivi.solve_solution` (lines 146-149): at `judge_level >=
1` the generated code is judged and regenerated once when rejected. -/
def solve_solution_codejudge (O : Oracles) (G judgeLevel : Nat) (sol : Solution)
    (c : Counters) : Except PyError Solution × Counters :=
  if 1 ≤ judgeLevel then
    match judge_code sol c with
    | (.error e, c) => (.error e, c)
    | (.ok (isCorrect, sol), c) =>
      if isCorrect then (.ok sol, c)
      else generate_solution_code O G sol c
  else (.ok sol, c)

/-- Steps 4-8 of `Vivi.solve_solution` (lines 151-169): read
`solution_history[-1]`, run the tests once, apply the `updateBest` step
(lines 157-159), return on a perfect score, otherwise critique. -/
def solve_solution_testing (O : Oracles) (sol : Solution) (c : Counters) :
    Except PyError Solution × Counters :=
  match sol.solution_history.getLast? with
  | none => (.error .indexError, c)
  | some entry =>
    let code := entry.content
    let r := O.testRate c.tests
    let c := { c with tests := c.tests + 1 }
    let sol := updateBest sol code r
    if r = 1 then (.ok sol, c)
    else analyze_test_failures O sol c

/-- `Vivi.solve_solution` (lines 137-169): optional pre-judgment at
`judge_level == 2`; code generation; code judgment at `judge_level >= 1`;
then the testing/critique tail. -/
def solve_solution (O : Oracles) (G judgeLevel : Nat) (sol : Solution) (c : Counters) :
    Except PyError Solution × Counters :=
  match solve_solution_prejudge O judgeLevel sol c with
  | (.error e, c) => (.error e, c)
  | (.ok sol, c) =>
    match generate_solution_code O G sol c with
    | (.error e, c) => (.error e, c)
    | (.ok sol, c) =>
      match solve_solution_codejudge O G judgeLevel sol c with
      | (.error e, c) => (.error e, c)
      | (.ok sol, c) => solve_solution_testing O sol c

/-- The `while True` repair loop of `Vivi.solve_subtasks` (lines 107-129).
The Python loop counts `retries` upward and exits when `retries <
max_retry` fails; here the loop is driven by `remaining = max_retry -
retries`, so `retries < max_retry` is the `remaining + 1` pattern and the
`break` of line 129 is the `remaining = 0` case.  Loop body, in source
order: read `solution_history[-1]`; run the tests; `updateBest`; break on
a perfect rate; critique; reset `context` to the task definition;
regenerate and continue while retries remain. -/
def subtasks_repair_loop (O : Oracles) (G : Nat) (taskDef : String) :
    Nat → Solution → Counters → Except PyError Solution × Counters
  | remaining, sol, c =>
    match sol.solution_history.getLast? with
    | none => (.error .indexError, c)
    | some entry =>
      let code := entry.content
      let r := O.testRate c.tests
      let c := { c with tests := c.tests + 1 }
      let sol := updateBest sol code r
      if r = 1 then (.ok sol, c)
      else
        match analyze_test_failures O sol c with
        | (.error e, c) => (.error e, c)
        | (.ok sol, c) =>
          let sol := { sol with context := taskDef }
          match remaining with
          | 0 => (.ok sol, c)
          | remaining + 1 =>
            match generate_solution_code O G sol c with
            | (.error e, c) => (.error e, c)
            | (.ok sol, c) => subtasks_repair_loop O G taskDef remaining sol c

/-- The tail of `Vivi.solve_subtasks` (lines 94-135) that follows the
recursive solving of the individual subtasks: the merged program `joined`
(result of `dev.join_subtasks_code`) becomes the task's code and the
`best_code` of a synthetic `Solution` with `success_rate = 0.0` and a
single `developer` history entry; the repair loop then runs with
`retries = 0` (i.e. `remaining = B`), and its result is copied into the
task's `best_solution` / `best_solution_rating` / `code` fields. -/
def solve_subtasks_repair (O : Oracles) (G B : Nat) (task : Task)
    (skeleton joined : String) (c : Counters) : Except PyError Task × Counters :=
  let task := { task with code := joined }
  let sol : Solution :=
    { context := task.definition
      propose_solution := skeleton
      best_code := task.code
      success_rate := 0
      solution_history := [HistEntry.mk "developer" task.code] }
  match subtasks_repair_loop O G task.definition B sol c with
  | (.error e, c) => (.error e, c)
  | (.ok sol, c) =>
    (.ok { task with best_solution := sol.propose_solution
                     best_solution_rating := sol.success_rate
                     code := sol.best_code }, c)

/-! ### `Vivi.solution_search` (lines 171-203)

The Python list `solutions` holds mutable `Solution` objects; `sorted`
reorders the references and `best_solution` aliases one of them.  The
embedding keeps the objects in `store : Nat → Solution` keyed by the
original position, the current list order as a `List Nat` of keys, and
the alias `best_solution` as a key. -/

/-- Insert key `i` into a list sorted by strictly descending rate: `i`
goes in front of the first key whose rate is not greater, which is where
Python's stable `sorted(key=…, reverse=True)` places it. -/
def insertByRateDesc (rate : Nat → Rat) (i : Nat) : List Nat → List Nat
  | [] => [i]
  | j :: t =>
    if rate i < rate j then j :: insertByRateDesc rate i t
    else i :: j :: t

/-- Python's stable `sorted(solutions, key=lambda s: s.success_rate,
reverse=True)` on the key list. -/
def sortByRateDesc (rate : Nat → Rat) : List Nat → List Nat
  | [] => []
  | i :: t => insertByRateDesc rate i (sortByRateDesc rate t)

/-- The inner `for solution in solutions` loop of `solution_search`
(lines 186-195): attempt each candidate in order, write the result back
to the store, raise the global best on a strict improvement, and stop
the round as soon as a candidate reaches rate 1.0. -/
def search_inner (O : Oracles) (G judgeLevel : Nat) :
    List Nat → (Nat → Solution) → Rat → Nat → Counters →
    Except PyError ((Nat → Solution) × Rat × Nat) × Counters
  | [], store, bestRate, bestIdx, c => (.ok (store, bestRate, bestIdx), c)
  | i :: rest, store, bestRate, bestIdx, c =>
    match solve_solution O G judgeLevel (store i) c with
    | (.error e, c) => (.error e, c)
    | (.ok sol, c) =>
      let store := Function.update store i sol
      let bestRate' := if bestRate < sol.success_rate then sol.success_rate else bestRate
      let bestIdx' := if bestRate < sol.success_rate then i else bestIdx
      if sol.success_rate = 1 then (.ok (store, bestRate', bestIdx'), c)
      else search_inner O G judgeLevel rest store bestRate' bestIdx' c

/-- The outer `for _ in range(self.max_retry)` loop of `solution_search`
(lines 182-197): each round re-sorts the current order by descending
stored rate, runs the inner loop, and stops early once the global best
reaches 1.0. -/
def search_rounds (O : Oracles) (G judgeLevel : Nat) :
    Nat → List Nat → (Nat → Solution) → Rat → Nat → Counters →
    Except PyError ((Nat → Solution) × Rat × Nat) × Counters
  | 0, _, store, bestRate, bestIdx, c => (.ok (store, bestRate, bestIdx), c)
  | rounds + 1, order, store, bestRate, bestIdx, c =>
    let order := sortByRateDesc (fun i => (store i).success_rate) order
    match search_inner O G judgeLevel order store bestRate bestIdx c with
    | (.error e, c) => (.error e, c)
    | (.ok (store, bestRate, bestIdx), c) =>
      if bestRate = 1 then (.ok (store, bestRate, bestIdx), c)
      else search_rounds O G judgeLevel rounds order store bestRate bestIdx c

/-- `Vivi.solution_search` (lines 171-203): seed full `Solution` objects
from the proposed `BaseSolution`s (field defaults fill `best_code = ""`,
`success_rate = -1.0`, `solution_history = []`); `solutions[0]` raises an
`IndexError` on an empty candidate list; after the rounds the task fields
are copied from the aliased best solution object. -/
def solution_search (O : Oracles) (G judgeLevel : Nat) (task : Task)
    (baseSolutions : List BaseSolution) (B : Nat) (c : Counters) :
    Except PyError Task × Counters :=
  let n := baseSolutions.length
  let store : Nat → Solution := fun i => Solution.ofBase (baseSolutions.getD i ⟨"", ""⟩)
  if n = 0 then (.error .indexError, c)
  else
    match search_rounds O G judgeLevel B (List.range n) store (-1) 0 c with
    | (.error e, c) => (.error e, c)
    | (.ok (store, _, bestIdx), c) =>
      let best := store bestIdx
      (.ok { task with best_solution := best.propose_solution
                       best_solution_rating := best.success_rate
                       code := best.best_code }, c)

/-! ## Plan decider (src/modules/agents/reseacher.py, class `Thifany`)

`Thifany.plan` returns the flat `PlanResponse` of src/modules/models.py
(`reasoning : Optional[str]`, `result_type`, `subtasks :
Optional[List[BaseTask]]`, `solutions : Optional[List[BaseSolution]]`),
which is the model in scope via `from modules.models import *`. -/

/-- The `Literal['solutions', 'subtasks']` of the plan schemas. -/
inductive ResultType where
  | solutions
  | subtasks
deriving Repr, DecidableEq

/-- `FunctionArgs` (src/modules/models.py). -/
structure FunctionArgs where
  name : String
  type : String
  description : Option String
deriving Repr, DecidableEq

/-- `BaseTask` (src/modules/models.py). -/
structure BaseTask where
  definition : String
  function_name : String
  args : List FunctionArgs
  dod : String
  keywords : List String
deriving Repr, DecidableEq

/-- `PlanSubtasks` (src/modules/models.py). -/
structure PlanSubtasks where
  skeleton : String
  subtasks : List BaseTask
deriving Repr, DecidableEq

/-- `PlanSolutions` (src/modules/models.py; it extends `PlanBase`, whence
the `skeleton` field). -/
structure PlanSolutions where
  skeleton : String
  solutions : List BaseSolution
deriving Repr, DecidableEq

/-- `PlanResponseModel` (src/modules/models.py). -/
structure PlanResponseModel where
  reasoning : Option String
  result_type : ResultType
deriving Repr, DecidableEq

/-- `PlanResponse` (src/modules/models.py; it extends `PlanResponseModel`
with the two optional branches). -/
structure PlanResponse where
  reasoning : Option String
  result_type : ResultType
  subtasks : Option (List BaseTask)
  solutions : Option (List BaseSolution)
deriving Repr, DecidableEq

/-- One (non-overlapping) match of the pattern
`final decision[:\s]*([a-z]+)` at the head of the already-lowercased
text: the literal, then any run of `:`/whitespace, then a non-empty run
of `a-z` as the captured word; returns the word and the text after the
match. -/
def matchDecisionAt (l : List Char) : Option (String × List Char) :=
  if startsWithChars "final decision".data l then
    let rest := (l.drop 14).dropWhile (fun c => c = ':' || isPyWhitespace c)
    let word := rest.takeWhile (fun c => 'a' ≤ c && c ≤ 'z')
    if word.isEmpty then none
    else some (String.mk word, rest.drop word.length)
  else none

/-- `re.findall` for the decision pattern: scan left to right, resuming
after the end of each match.  The fuel argument is the length of the
text, enough because every step consumes at least one character. -/
def findAllDecisions : Nat → List Char → List String
  | 0, _ => []
  | _, [] => []
  | fuel + 1, l@(_ :: t) =>
    match matchDecisionAt l with
    | some (w, rest) => w :: findAllDecisions fuel rest
    | none => findAllDecisions fuel t

/-- `Thifany._extract_final_decision` (reseacher.py lines 417-427): lower
the text, find all `final decision[:\s]*([a-z]+)` matches, keep the last,
and accept it only when it is literally `subtasks` or `solutions`. -/
def extract_final_decision (responseText : String) : Option ResultType :=
  let lowered := pyLower responseText
  match (findAllDecisions lowered.data.length lowered.data).getLast? with
  | none => none
  | some d =>
    if d = "subtasks" then some .subtasks
    else if d = "solutions" then some .solutions
    else none

/-- `Thifany._decide_plan_type` (reseacher.py lines 429-461).  `resp1` is
the reasoning response, `resp2` the response of the secondary extraction
pass (consumed only on the fallback path).  The first branch returns only
when the text contains the literal `"FINAL DECISION"` *and* the regex
extraction yields a valid decision; otherwise the secondary response
decides: `subtasks` iff its lowercase form mentions `"subtasks"`. -/
def decide_plan_type (resp1 resp2 : String) : PlanResponseModel :=
  match pyContains resp1 "FINAL DECISION", extract_final_decision resp1 with
  | true, some d => { reasoning := some resp1, result_type := d }
  | _, _ =>
    { reasoning := some resp1
      result_type :=
        if pyContains (pyLower resp2) "subtasks" then .subtasks else .solutions }

/-- Oracle data for one `Thifany.plan` call: the two plain-text decision
responses and the `model_validate_json` outcomes of the structured
subtask/solution extraction calls. -/
structure PlanOracle where
  decideResp1 : String
  decideResp2 : String
  subtasksExtract : Option PlanSubtasks
  solutionsExtract : Option PlanSolutions

/-- Step 4 of `Thifany.plan` (reseacher.py lines 551-557), the single
fall-through point of the method: `_plan_solutions` (a failed `PlanSolutions`
validation propagates), then `PlanResponse(reasoning=None,
result_type='solutions', solutions=solutions.solutions)`. -/
def plan_solutions_step (PO : PlanOracle) : Except PyError PlanResponse :=
  match PO.solutionsExtract with
  | none => .error .validationError
  | some ps =>
    .ok { reasoning := none
          result_type := .solutions
          subtasks := none
          solutions := some ps.solutions }

/-- `Thifany.plan` (reseacher.py lines 522-557): when not at final depth,
decide the plan type; on `subtasks` run the subtask extraction and accept
that branch only with at least 2 subtasks; every other path falls through
to the `solutions` step. -/
def plan (PO : PlanOracle) (isFinal : Bool) : Except PyError PlanResponse :=
  if isFinal then plan_solutions_step PO
  else
    let pr := decide_plan_type PO.decideResp1 PO.decideResp2
    if pr.result_type = .subtasks then
      match PO.subtasksExtract with
      | none => .error .validationError
      | some st =>
        if 2 ≤ st.subtasks.length then
          .ok { reasoning := pr.reasoning
                result_type := .subtasks
                subtasks := some st.subtasks
                solutions := none }
        else plan_solutions_step PO
    else plan_solutions_step PO

/-! ## QA test runner (src/modules/agents/qa.py, class `Carlos`) -/

/-- The implementation placeholder of every harness template. -/
def implementationPlaceholder : String := "# FUNCTION_IMPLEMENTATION_HERE"

/-- The `for _ in range(self.retry_attempts)` loop of `Carlos.run_tests`
(lines 215-238).  `qaParse` abstracts `modules.agents.utils.parse_code`
(`some` = the code it returns, `none` = the `ValueError` it raises);
`fixResp` is the LLM response of the k-th repair call.  On a successful
parse the parsed result is discarded and `test_code` is left unchanged;
in the `except` branch `test_code = parse_code(fixed_code.response)`,
whose own `ValueError` propagates out of `run_tests`. -/
def run_tests_fix_loop (qaParse : String → Option String) (fixResp : Nat → String) :
    Nat → Nat → String → Except PyError String
  | _, 0, testCode => .ok testCode
  | fixCount, remaining + 1, testCode =>
    match qaParse testCode with
    | some _ => run_tests_fix_loop qaParse fixResp fixCount remaining testCode
    | none =>
      match qaParse (fixResp fixCount) with
      | some fixedCode => run_tests_fix_loop qaParse fixResp (fixCount + 1) remaining fixedCode
      | none => .error .valueError

/-- The program text that `run_tests_parallel` (qa.py lines 148-157)
writes to the temporary file it executes: the harness template with the
placeholder replaced by its `implementation` argument. -/
def run_tests_parallel_source (suite : TestSuiteComplete) (implementation : String) : String :=
  pyReplace suite.test_code_raw implementationPlaceholder implementation

/-- `Carlos.run_tests` (qa.py lines 211-240), observed at the level of
the program text that finally gets executed: line 212 substitutes the
implementation into the harness once, the fix loop possibly rewrites that
text, and line 240 hands the result to `run_tests_parallel` as the
`implementation` argument — which substitutes it into the placeholder of
a fresh copy of the same harness. -/
def run_tests_executed_source (qaParse : String → Option String) (fixResp : Nat → String)
    (retryAttempts : Nat) (suite : TestSuiteComplete) (implementation : String) :
    Except PyError String :=
  let testCode := pyReplace suite.test_code_raw implementationPlaceholder implementation
  match run_tests_fix_loop qaParse fixResp 0 retryAttempts testCode with
  | .error e => .error e
  | .ok testCode => .ok (run_tests_parallel_source suite testCode)

/-! ## Concrete inputs used by witnesses and counterexamples -/

/-- A collaborator that always succeeds: every test run scores 1.0, every
developer response parses as-is, every critique carries both tags. -/
def happyOracle : Oracles :=
  { testRate := fun _ => 1
    critiqueText := fun _ => "<context> c2 </context> <propose_solution> p2 </propose_solution>"
    critiqueExtract := fun _ => some ⟨"c3", "p3"⟩
    devText := fun _ _ => "print(1)"
    parseCode := fun s => some s
    judgeText := fun _ => "<feedback> fine </feedback> <is_correct> true </is_correct>"
    judgeExtract := fun _ => some ⟨true, "fb"⟩ }

/-- A collaborator whose developer responses never parse (every test run
scores 0.0, critiques succeed through the secondary extraction). -/
def failOracle : Oracles :=
  { testRate := fun _ => 0
    critiqueText := fun _ => "no tags at all"
    critiqueExtract := fun _ => some ⟨"c", "p"⟩
    devText := fun _ _ => "x"
    parseCode := fun _ => none
    judgeText := fun _ => ""
    judgeExtract := fun _ => none }

/-- A collaborator whose critique responses carry no tags and whose
secondary critique extraction also fails validation. -/
def noExtractOracle : Oracles :=
  { testRate := fun _ => 0
    critiqueText := fun _ => "no tags at all"
    critiqueExtract := fun _ => none
    devText := fun _ _ => "x"
    parseCode := fun s => some s
    judgeText := fun _ => ""
    judgeExtract := fun _ => none }

/-- A freshly constructed task (note `best_solution_rating = 0.0`, the
field default of `Task`). -/
def sampleTask : Task :=
  { definition := "sum two numbers"
    function_name := "sum_two"
    dod := "returns the sum"
    template := ""
    best_solution := ""
    best_solution_rating := 0
    code := "" }

/-- A sample test suite whose harness carries the placeholder between two
marker characters. -/
def sampleSuite : TestSuiteComplete :=
  { test_cases := []
    test_code_raw := "H# FUNCTION_IMPLEMENTATION_HERET"
    function_name := "f" }

/-- A `parse_code` outcome map under which the once-substituted combined
text `"HXT"` fails the syntax check (a `ValueError`), the LLM repair
response `"llm fix"` parses to the repaired program `"FIX"`, and any
other text parses as-is. -/
def cexQaParse : String → Option String :=
  fun s => if s = "HXT" then none else if s = "llm fix" then some "FIX" else some s

/-- The LLM repair responses that go with `cexQaParse`. -/
def cexFixResp : Nat → String := fun _ => "llm fix"

/-! ## Helper lemmas -/

theorem updateBest_success_rate (s : Solution) (code : String) (r : Rat) :
    (updateBest s code r).success_rate = if s.success_rate ≤ r then r else s.success_rate := by
  unfold updateBest; split <;> rfl

theorem updateBest_best_code (s : Solution) (code : String) (r : Rat) :
    (updateBest s code r).best_code = if s.success_rate ≤ r then code else s.best_code := by
  unfold updateBest; split <;> rfl

theorem updateBest_mono (s : Solution) (code : String) (r : Rat) :
    s.success_rate ≤ (updateBest s code r).success_rate := by
  rw [updateBest_success_rate]; split <;> simp [*]

theorem updateBest_nonneg (s : Solution) (code : String) (r : Rat) (hr : 0 ≤ r) :
    0 ≤ (updateBest s code r).success_rate := by
  rw [updateBest_success_rate]; split
  · exact hr
  · exact le_trans hr (le_of_not_le (by assumption))

theorem analyze_ok_fields {O : Oracles} {sol : Solution} {c : Counters}
    {sol' : Solution} {c' : Counters}
    (h : analyze_test_failures O sol c = (.ok sol', c')) :
    sol'.success_rate = sol.success_rate ∧ sol'.best_code = sol.best_code := by
  unfold analyze_test_failures at h
  dsimp only at h
  split at h
  · simp only [Prod.mk.injEq, Except.ok.injEq] at h
    obtain ⟨h1, -⟩ := h
    subst h1; exact ⟨rfl, rfl⟩
  · split at h
    · simp only [Prod.mk.injEq, Except.ok.injEq] at h
      obtain ⟨h1, -⟩ := h
      subst h1; exact ⟨rfl, rfl⟩
    · simp at h

theorem analyze_counters (O : Oracles) (sol : Solution) (c : Counters) :
    (analyze_test_failures O sol c).2 = { c with critiques := c.critiques + 1 } := by
  unfold analyze_test_failures
  dsimp only
  split
  · rfl
  · split <;> rfl

theorem generation_attempts_ok {O : Oracles} {k : Nat} {sol sol' : Solution} :
    ∀ {j n : Nat}, generation_attempts O k sol j n = .ok sol' →
      sol'.success_rate = sol.success_rate ∧ sol'.best_code = sol.best_code := by
  intro j n
  induction n generalizing j with
  | zero => intro h; simp [generation_attempts] at h
  | succ m ih =>
    intro h
    unfold generation_attempts at h
    split at h
    · simp only [Except.ok.injEq] at h
      subst h; exact ⟨rfl, rfl⟩
    · exact ih h

theorem generate_ok_fields {O : Oracles} {G : Nat} {sol : Solution} {c : Counters}
    {sol' : Solution} {c' : Counters}
    (h : generate_solution_code O G sol c = (.ok sol', c')) :
    sol'.success_rate = sol.success_rate ∧ sol'.best_code = sol.best_code := by
  unfold generate_solution_code at h
  simp only [Prod.mk.injEq] at h
  exact generation_attempts_ok h.1

theorem generate_counters (O : Oracles) (G : Nat) (sol : Solution) (c : Counters) :
    (generate_solution_code O G sol c).2 = { c with gens := c.gens + 1 } := rfl

theorem judge_solution_ok_fields {O : Oracles} {sol : Solution} {c : Counters}
    {b : Bool} {sol' : Solution} {c' : Counters}
    (h : judge_solution O sol c = (.ok (b, sol'), c')) :
    sol'.success_rate = sol.success_rate ∧ sol'.best_code = sol.best_code := by
  unfold judge_solution at h
  dsimp only at h
  split at h
  · simp at h
  · simp only [Prod.mk.injEq, Except.ok.injEq] at h
    obtain ⟨⟨-, h1⟩, -⟩ := h
    subst h1
    split <;> exact ⟨rfl, rfl⟩

theorem judge_solution_counters (O : Oracles) (sol : Solution) (c : Counters) :
    (judge_solution O sol c).2 = { c with judgeSols := c.judgeSols + 1 } := by
  unfold judge_solution
  dsimp only
  split <;> rfl

theorem judge_code_counters (sol : Solution) (c : Counters) :
    (judge_code sol c).2 = c ∨
      (judge_code sol c).2 = { c with judgeCodes := c.judgeCodes + 1 } := by
  unfold judge_code
  split
  · exact Or.inl rfl
  · exact Or.inr rfl

theorem prejudge_ok_fields {O : Oracles} {jl : Nat} {sol : Solution} {c : Counters}
    {sol' : Solution} {c' : Counters}
    (h : solve_solution_prejudge O jl sol c = (.ok sol', c')) :
    sol'.success_rate = sol.success_rate ∧ sol'.best_code = sol.best_code := by
  unfold solve_solution_prejudge at h
  split at h
  · split at h
    · simp at h
    · rename_i heq
      simp only [Prod.mk.injEq, Except.ok.injEq] at h
      obtain ⟨h1, -⟩ := h
      subst h1
      exact judge_solution_ok_fields heq
  · simp only [Prod.mk.injEq, Except.ok.injEq] at h
    obtain ⟨h1, -⟩ := h
    subst h1; exact ⟨rfl, rfl⟩

theorem codejudge_ok_fields {O : Oracles} {G jl : Nat} {sol : Solution} {c : Counters}
    {sol' : Solution} {c' : Counters}
    (h : solve_solution_codejudge O G jl sol c = (.ok sol', c')) :
    sol'.success_rate = sol.success_rate ∧ sol'.best_code = sol.best_code := by
  unfold solve_solution_codejudge at h
  split at h
  · split at h
    · simp at h
    · rename_i heq
      split at h
      · simp only [Prod.mk.injEq, Except.ok.injEq] at h
        obtain ⟨h1, -⟩ := h
        subst h1
        have hjc : False := by
          unfold judge_code at heq
          split at heq <;> simp at heq
        exact hjc.elim
      · have hjc : False := by
          unfold judge_code at heq
          split at heq <;> simp at heq
        exact hjc.elim
  · simp only [Prod.mk.injEq, Except.ok.injEq] at h
    obtain ⟨h1, -⟩ := h
    subst h1; exact ⟨rfl, rfl⟩

theorem testing_ok_rate {O : Oracles} {sol : Solution} {c : Counters}
    {sol' : Solution} {c' : Counters}
    (h : solve_solution_testing O sol c = (.ok sol', c')) :
    sol.success_rate ≤ sol'.success_rate ∧
      (0 ≤ O.testRate c.tests → 0 ≤ sol'.success_rate) := by
  unfold solve_solution_testing at h
  split at h
  · simp at h
  · rename_i entry heq
    dsimp only at h
    split at h
    · simp only [Prod.mk.injEq, Except.ok.injEq] at h
      obtain ⟨h1, -⟩ := h
      subst h1
      exact ⟨updateBest_mono _ _ _, fun hr => updateBest_nonneg _ _ _ hr⟩
    · have hfields := analyze_ok_fields h
      refine ⟨?_, ?_⟩
      · rw [hfields.1]; exact updateBest_mono _ _ _
      · intro hr; rw [hfields.1]; exact updateBest_nonneg _ _ _ hr

theorem solve_solution_ok_rate {O : Oracles} {G jl : Nat} {sol : Solution} {c : Counters}
    {sol' : Solution} {c' : Counters}
    (h : solve_solution O G jl sol c = (.ok sol', c')) :
    sol.success_rate ≤ sol'.success_rate ∧
      ((∀ k, 0 ≤ O.testRate k) → 0 ≤ sol'.success_rate) := by
  unfold solve_solution at h
  split at h
  · simp at h
  · rename_i sol₁ c₁ heq₁
    split at h
    · simp at h
    · rename_i sol₂ c₂ heq₂
      split at h
      · simp at h
      · rename_i sol₃ c₃ heq₃
        have h1 := prejudge_ok_fields heq₁
        have h2 := generate_ok_fields heq₂
        have h3 := codejudge_ok_fields heq₃
        have h4 := testing_ok_rate h
        constructor
        · calc sol.success_rate = sol₃.success_rate := by rw [h3.1, h2.1, h1.1]
            _ ≤ sol'.success_rate := h4.1
        · intro hO
          exact h4.2 (hO _)

theorem prejudge_counters (O : Oracles) (jl : Nat) (sol : Solution) (c : Counters) :
    (solve_solution_prejudge O jl sol c).2 = c ∨
      (solve_solution_prejudge O jl sol c).2 = { c with judgeSols := c.judgeSols + 1 } := by
  unfold solve_solution_prejudge
  split
  · right
    rw [← judge_solution_counters O sol c]
    rcases hj : judge_solution O sol c with ⟨res, c₁⟩
    cases res with
    | error e => simp
    | ok p => rcases p with ⟨b, s⟩; simp
  · left; rfl

theorem codejudge_counters (O : Oracles) (G jl : Nat) (sol : Solution) (c : Counters) :
    (solve_solution_codejudge O G jl sol c).2 = c ∨
      (solve_solution_codejudge O G jl sol c).2 = { c with judgeCodes := c.judgeCodes + 1 } := by
  unfold solve_solution_codejudge
  split
  · rcases hj : judge_code sol c with ⟨res, c₁⟩
    have hc₁ : c₁ = (judge_code sol c).2 := by rw [hj]
    cases res with
    | error e =>
      simp only []
      rcases judge_code_counters sol c with hk | hk
      · left; rw [hc₁, hk]
      · right; rw [hc₁, hk]
    | ok p =>
      exfalso
      unfold judge_code at hj
      split at hj <;> simp at hj
  · left; rfl

theorem testing_counters (O : Oracles) (sol : Solution) (c : Counters) :
    (solve_solution_testing O sol c).2 = c ∨
      (solve_solution_testing O sol c).2 = { c with tests := c.tests + 1 } ∨
      (solve_solution_testing O sol c).2 =
        { c with tests := c.tests + 1, critiques := c.critiques + 1 } := by
  unfold solve_solution_testing
  split
  · exact Or.inl rfl
  · dsimp only
    split
    · exact Or.inr (Or.inl rfl)
    · exact Or.inr (Or.inr (analyze_counters O _ _))

theorem solve_solution_counters (O : Oracles) (G jl : Nat) (sol : Solution) (c : Counters) :
    (solve_solution O G jl sol c).2.tests ≤ c.tests + 1 ∧
      (solve_solution O G jl sol c).2.critiques ≤ c.critiques + 1 ∧
      (solve_solution O G jl sol c).2.gens ≤ c.gens + 1 ∧
      (solve_solution O G jl sol c).2.judgeSols ≤ c.judgeSols + 1 ∧
      (solve_solution O G jl sol c).2.judgeCodes ≤ c.judgeCodes + 1 := by
  unfold solve_solution
  split
  · rename_i e c₁ heq
    have hc₁ : c₁ = (solve_solution_prejudge O jl sol c).2 := by rw [heq]
    rcases prejudge_counters O jl sol c with hp | hp <;>
      (rw [hc₁, hp]; refine ⟨?_, ?_, ?_, ?_, ?_⟩ <;> dsimp only <;> omega)
  · rename_i sol₁ c₁ heq₁
    have hc₁ : c₁ = (solve_solution_prejudge O jl sol c).2 := by rw [heq₁]
    have hp : c₁.tests = c.tests ∧ c₁.critiques = c.critiques ∧ c₁.gens = c.gens ∧
        c₁.judgeSols ≤ c.judgeSols + 1 ∧ c₁.judgeCodes = c.judgeCodes := by
      rcases prejudge_counters O jl sol c with hp | hp <;>
        (rw [hc₁, hp]; refine ⟨?_, ?_, ?_, ?_, ?_⟩ <;> dsimp only <;> omega)
    split
    · rename_i e c₂ heq₂
      have hc₂ : c₂ = (generate_solution_code O G sol₁ c₁).2 := by rw [heq₂]
      rw [hc₂, generate_counters]
      refine ⟨?_, ?_, ?_, ?_, ?_⟩ <;> dsimp only <;> omega
    · rename_i sol₂ c₂ heq₂
      have hc₂ : c₂ = (generate_solution_code O G sol₁ c₁).2 := by rw [heq₂]
      have hg : c₂.tests = c₁.tests ∧ c₂.critiques = c₁.critiques ∧
          c₂.gens = c₁.gens + 1 ∧ c₂.judgeSols = c₁.judgeSols ∧
          c₂.judgeCodes = c₁.judgeCodes := by
        rw [hc₂, generate_counters]; exact ⟨rfl, rfl, rfl, rfl, rfl⟩
      split
      · rename_i e c₃ heq₃
        have hc₃ : c₃ = (solve_solution_codejudge O G jl sol₂ c₂).2 := by rw [heq₃]
        rcases codejudge_counters O G jl sol₂ c₂ with hj | hj <;>
          (rw [hc₃, hj]; refine ⟨?_, ?_, ?_, ?_, ?_⟩ <;> dsimp only <;> omega)
      · rename_i sol₃ c₃ heq₃
        have hc₃ : c₃ = (solve_solution_codejudge O G jl sol₂ c₂).2 := by rw [heq₃]
        have hj : c₃.tests = c₂.tests ∧ c₃.critiques = c₂.critiques ∧
            c₃.gens = c₂.gens ∧ c₃.judgeSols = c₂.judgeSols ∧
            c₃.judgeCodes ≤ c₂.judgeCodes + 1 := by
          rcases codejudge_counters O G jl sol₂ c₂ with hk | hk <;>
            (rw [hc₃, hk]; refine ⟨?_, ?_, ?_, ?_, ?_⟩ <;> dsimp only <;> omega)
        rcases testing_counters O sol₃ c₃ with ht | ht | ht <;>
          (rw [ht]; refine ⟨?_, ?_, ?_, ?_, ?_⟩ <;> dsimp only <;> omega)

theorem repair_loop_ok_mono {O : Oracles} {G : Nat} {d : String} :
    ∀ {rem : Nat} {sol : Solution} {c : Counters} {sol' : Solution} {c' : Counters},
      subtasks_repair_loop O G d rem sol c = (.ok sol', c') →
      sol.success_rate ≤ sol'.success_rate := by
  intro rem
  induction rem with
  | zero =>
    intro sol c sol' c' h
    unfold subtasks_repair_loop at h
    split at h
    · simp at h
    · dsimp only at h
      split at h
      · simp only [Prod.mk.injEq, Except.ok.injEq] at h
        obtain ⟨h1, -⟩ := h; subst h1
        exact updateBest_mono _ _ _
      · split at h
        · simp at h
        · rename_i sol₂ c₂ heq₂
          simp only [Prod.mk.injEq, Except.ok.injEq] at h
          obtain ⟨h1, -⟩ := h; subst h1
          have hf := analyze_ok_fields heq₂
          calc sol.success_rate ≤ (updateBest sol _ _).success_rate := updateBest_mono _ _ _
            _ = sol₂.success_rate := hf.1.symm
  | succ m ih =>
    intro sol c sol' c' h
    unfold subtasks_repair_loop at h
    split at h
    · simp at h
    · dsimp only at h
      split at h
      · simp only [Prod.mk.injEq, Except.ok.injEq] at h
        obtain ⟨h1, -⟩ := h; subst h1
        exact updateBest_mono _ _ _
      · split at h
        · simp at h
        · rename_i sol₂ c₂ heq₂
          split at h
          · simp at h
          · rename_i sol₄ c₃ heq₃
            have hf := analyze_ok_fields heq₂
            have hg := generate_ok_fields heq₃
            calc sol.success_rate
                ≤ (updateBest sol _ _).success_rate := updateBest_mono _ _ _
              _ = sol₂.success_rate := hf.1.symm
              _ = sol₄.success_rate := by
                  have : sol₄.success_rate =
                      (Solution.mk sol₂.context sol₂.propose_solution sol₂.best_code
                        sol₂.success_rate sol₂.solution_history).success_rate := by
                    exact (generate_ok_fields heq₃).1
                  simpa using this.symm
              _ ≤ sol'.success_rate := ih h

theorem repair_loop_counters (O : Oracles) (G : Nat) (d : String) :
    ∀ (rem : Nat) (sol : Solution) (c : Counters),
      (subtasks_repair_loop O G d rem sol c).2.tests ≤ c.tests + (rem + 1) ∧
      (subtasks_repair_loop O G d rem sol c).2.critiques ≤ c.critiques + (rem + 1) ∧
      (subtasks_repair_loop O G d rem sol c).2.gens ≤ c.gens + rem ∧
      (subtasks_repair_loop O G d rem sol c).2.judgeSols = c.judgeSols ∧
      (subtasks_repair_loop O G d rem sol c).2.judgeCodes = c.judgeCodes := by
  intro rem
  induction rem with
  | zero =>
    intro sol c
    unfold subtasks_repair_loop
    split
    · exact ⟨by dsimp only; omega, by dsimp only; omega, by dsimp only; omega, rfl, rfl⟩
    · dsimp only
      split
      · exact ⟨by dsimp only; omega, by dsimp only; omega, by dsimp only; omega, rfl, rfl⟩
      · rcases hA : analyze_test_failures O (updateBest sol _ _) _ with ⟨res, c₂⟩
        have hc₂ := congrArg Prod.snd hA
        rw [analyze_counters] at hc₂
        dsimp only at hc₂
        subst hc₂
        cases res with
        | error e => exact ⟨by dsimp only; omega, by dsimp only; omega,
            by dsimp only; omega, rfl, rfl⟩
        | ok sol₂ => exact ⟨by dsimp only; omega, by dsimp only; omega,
            by dsimp only; omega, rfl, rfl⟩
  | succ m ih =>
    intro sol c
    unfold subtasks_repair_loop
    split
    · exact ⟨by dsimp only; omega, by dsimp only; omega, by dsimp only; omega, rfl, rfl⟩
    · dsimp only
      split
      · exact ⟨by dsimp only; omega, by dsimp only; omega, by dsimp only; omega, rfl, rfl⟩
      · rcases hA : analyze_test_failures O (updateBest sol _ _) _ with ⟨res, c₂⟩
        have hc₂ := congrArg Prod.snd hA
        rw [analyze_counters] at hc₂
        dsimp only at hc₂
        subst hc₂
        cases res with
        | error e => exact ⟨by dsimp only; omega, by dsimp only; omega,
            by dsimp only; omega, rfl, rfl⟩
        | ok sol₂ =>
          dsimp only
          rcases hG : generate_solution_code O G { sol₂ with context := d } _ with ⟨res₂, c₃⟩
          have hc₃ := congrArg Prod.snd hG
          rw [generate_counters] at hc₃
          dsimp only at hc₃
          subst hc₃
          cases res₂ with
          | error e => exact ⟨by dsimp only; omega,
              by dsimp only; omega, by dsimp only; omega, rfl, rfl⟩
          | ok sol₄ =>
            have hrec := ih sol₄
              { tests := c.tests + 1, critiques := c.critiques + 1, gens := c.gens + 1,
                judgeSols := c.judgeSols, judgeCodes := c.judgeCodes }
            refine ⟨?_, ?_, ?_, ?_, ?_⟩ <;>
              (rcases hrec with ⟨r1, r2, r3, r4, r5⟩; dsimp only at r1 r2 r3 r4 r5 ⊢; omega)

theorem insertByRateDesc_length (rate : Nat → Rat) (i : Nat) :
    ∀ l : List Nat, (insertByRateDesc rate i l).length = l.length + 1 := by
  intro l
  induction l with
  | nil => rfl
  | cons j t ih =>
    unfold insertByRateDesc
    split
    · simp [ih]
    · simp

theorem sortByRateDesc_length (rate : Nat → Rat) :
    ∀ l : List Nat, (sortByRateDesc rate l).length = l.length := by
  intro l
  induction l with
  | nil => rfl
  | cons i t ih =>
    unfold sortByRateDesc
    rw [insertByRateDesc_length, ih, List.length_cons]

theorem sortByRateDesc_ne_nil {rate : Nat → Rat} (l : List Nat) (h : l ≠ []) :
    sortByRateDesc rate l ≠ [] := by
  intro hs
  apply h
  have := sortByRateDesc_length rate l
  rw [hs] at this
  exact List.length_eq_zero.mp this.symm

theorem search_inner_ok_nonneg {O : Oracles} {G jl : Nat}
    (hO : ∀ k, 0 ≤ O.testRate k) :
    ∀ {order : List Nat} {store : Nat → Solution} {bestRate : Rat} {bestIdx : Nat}
      {c : Counters} {store' : Nat → Solution} {br' : Rat} {bi' : Nat} {c' : Counters},
      search_inner O G jl order store bestRate bestIdx c = (.ok (store', br', bi'), c') →
      (0 ≤ (store bestIdx).success_rate ∨ (order ≠ [] ∧ bestRate < 0)) →
      0 ≤ (store' bi').success_rate := by
  intro order
  induction order with
  | nil =>
    intro store bestRate bestIdx c store' br' bi' c' h hP
    unfold search_inner at h
    simp only [Prod.mk.injEq, Except.ok.injEq] at h
    obtain ⟨⟨h1, -, h3⟩, -⟩ := h
    subst h1; subst h3
    rcases hP with hP | ⟨hne, -⟩
    · exact hP
    · exact absurd rfl hne
  | cons i rest ih =>
    intro store bestRate bestIdx c store' br' bi' c' h hP
    unfold search_inner at h
    split at h
    · simp at h
    · rename_i sol₁ c₁ heq₁
      have hnn : 0 ≤ sol₁.success_rate := (solve_solution_ok_rate heq₁).2 hO
      dsimp only at h
      by_cases hlt : bestRate < sol₁.success_rate
      · simp only [if_pos hlt] at h
        split at h
        · simp only [Prod.mk.injEq, Except.ok.injEq] at h
          obtain ⟨⟨h1, -, h3⟩, -⟩ := h
          subst h1; subst h3
          rw [Function.update_same]
          exact hnn
        · refine ih h (Or.inl ?_)
          rw [Function.update_same]
          exact hnn
      · simp only [if_neg hlt] at h
        have hbase : 0 ≤ (Function.update store i sol₁ bestIdx).success_rate := by
          rcases hP with hP | ⟨-, hneg⟩
          · by_cases hij : bestIdx = i
            · subst hij; rw [Function.update_same]; exact hnn
            · rw [Function.update_noteq hij]; exact hP
          · exact absurd (lt_of_lt_of_le hneg hnn) hlt
        split at h
        · simp only [Prod.mk.injEq, Except.ok.injEq] at h
          obtain ⟨⟨h1, -, h3⟩, -⟩ := h
          subst h1; subst h3
          exact hbase
        · exact ih h (Or.inl hbase)

theorem search_rounds_ok_nonneg {O : Oracles} {G jl : Nat}
    (hO : ∀ k, 0 ≤ O.testRate k) :
    ∀ {rounds : Nat} {order : List Nat} {store : Nat → Solution} {bestRate : Rat}
      {bestIdx : Nat} {c : Counters} {store' : Nat → Solution} {br' : Rat} {bi' : Nat}
      {c' : Counters},
      search_rounds O G jl rounds order store bestRate bestIdx c = (.ok (store', br', bi'), c') →
      (0 ≤ (store bestIdx).success_rate ∨ (order ≠ [] ∧ bestRate < 0 ∧ 1 ≤ rounds)) →
      0 ≤ (store' bi').success_rate := by
  intro rounds
  induction rounds with
  | zero =>
    intro order store bestRate bestIdx c store' br' bi' c' h hP
    unfold search_rounds at h
    simp only [Prod.mk.injEq, Except.ok.injEq] at h
    obtain ⟨⟨h1, -, h3⟩, -⟩ := h
    subst h1; subst h3
    rcases hP with hP | ⟨-, -, hr⟩
    · exact hP
    · omega
  | succ m ih =>
    intro order store bestRate bestIdx c store' br' bi' c' h hP
    unfold search_rounds at h
    dsimp only at h
    split at h
    · simp at h
    · rename_i store₁ br₁ bi₁ c₁ heq₁
      have hP₁ : 0 ≤ (store₁ bi₁).success_rate := by
        refine search_inner_ok_nonneg hO heq₁ ?_
        rcases hP with hP | ⟨hne, hneg, -⟩
        · exact Or.inl hP
        · exact Or.inr ⟨sortByRateDesc_ne_nil _ hne, hneg⟩
      split at h
      · simp only [Prod.mk.injEq, Except.ok.injEq] at h
        obtain ⟨⟨h1, -, h3⟩, -⟩ := h
        subst h1; subst h3
        exact hP₁
      · exact ih h (Or.inl hP₁)

theorem solution_search_ok_nonneg {O : Oracles} {G jl : Nat} {task : Task}
    {bs : List BaseSolution} {B : Nat} {c : Counters} {task' : Task} {c' : Counters}
    (hO : ∀ k, 0 ≤ O.testRate k) (hB : 1 ≤ B) (hbs : bs ≠ [])
    (h : solution_search O G jl task bs B c = (.ok task', c')) :
    0 ≤ task'.best_solution_rating := by
  unfold solution_search at h
  dsimp only at h
  split at h
  · rename_i hn
    simp at h
  · rename_i hn
    split at h
    · simp at h
    · rename_i store' br' bi' c₁ heq
      simp only [Prod.mk.injEq, Except.ok.injEq] at h
      obtain ⟨h1, -⟩ := h
      subst h1
      dsimp only
      refine search_rounds_ok_nonneg hO heq (Or.inr ⟨?_, by norm_num, hB⟩)
      have hlen0 : bs.length ≠ 0 := fun h0 => hbs (List.length_eq_zero.mp h0)
      simpa [List.range_eq_nil] using hlen0

theorem search_inner_counters (O : Oracles) (G jl : Nat) :
    ∀ (order : List Nat) (store : Nat → Solution) (bestRate : Rat) (bestIdx : Nat)
      (c : Counters),
      (search_inner O G jl order store bestRate bestIdx c).2.tests ≤
          c.tests + order.length ∧
        (search_inner O G jl order store bestRate bestIdx c).2.critiques ≤
          c.critiques + order.length ∧
        (search_inner O G jl order store bestRate bestIdx c).2.gens ≤
          c.gens + order.length ∧
        (search_inner O G jl order store bestRate bestIdx c).2.judgeSols ≤
          c.judgeSols + order.length ∧
        (search_inner O G jl order store bestRate bestIdx c).2.judgeCodes ≤
          c.judgeCodes + order.length := by
  intro order
  induction order with
  | nil =>
    intro store bestRate bestIdx c
    exact ⟨by simp [search_inner], by simp [search_inner], by simp [search_inner],
      by simp [search_inner], by simp [search_inner]⟩
  | cons i rest ih =>
    intro store bestRate bestIdx c
    have hs := solve_solution_counters O G jl (store i) c
    unfold search_inner
    rcases hsol : solve_solution O G jl (store i) c with ⟨res, c₁⟩
    have hc₁ := congrArg Prod.snd hsol
    dsimp only at hc₁
    rw [hc₁] at hs
    cases res with
    | error e =>
      dsimp only
      rcases hs with ⟨s1, s2, s3, s4, s5⟩
      exact ⟨by simp; omega, by simp; omega, by simp; omega, by simp; omega, by simp; omega⟩
    | ok sol₁ =>
      dsimp only
      split
      · rcases hs with ⟨s1, s2, s3, s4, s5⟩
        exact ⟨by simp; omega, by simp; omega, by simp; omega, by simp; omega, by simp; omega⟩
      · have hrec := ih (Function.update store i sol₁)
          (if bestRate < sol₁.success_rate then sol₁.success_rate else bestRate)
          (if bestRate < sol₁.success_rate then i else bestIdx) c₁
        rcases hs with ⟨s1, s2, s3, s4, s5⟩
        rcases hrec with ⟨r1, r2, r3, r4, r5⟩
        exact ⟨by simp at r1 ⊢; omega, by simp at r2 ⊢; omega, by simp at r3 ⊢; omega,
          by simp at r4 ⊢; omega, by simp at r5 ⊢; omega⟩

theorem search_rounds_counters (O : Oracles) (G jl : Nat) :
    ∀ (rounds : Nat) (order : List Nat) (store : Nat → Solution) (bestRate : Rat)
      (bestIdx : Nat) (c : Counters),
      (search_rounds O G jl rounds order store bestRate bestIdx c).2.tests ≤
          c.tests + rounds * order.length ∧
        (search_rounds O G jl rounds order store bestRate bestIdx c).2.critiques ≤
          c.critiques + rounds * order.length ∧
        (search_rounds O G jl rounds order store bestRate bestIdx c).2.gens ≤
          c.gens + rounds * order.length ∧
        (search_rounds O G jl rounds order store bestRate bestIdx c).2.judgeSols ≤
          c.judgeSols + rounds * order.length ∧
        (search_rounds O G jl rounds order store bestRate bestIdx c).2.judgeCodes ≤
          c.judgeCodes + rounds * order.length := by
  intro rounds
  induction rounds with
  | zero =>
    intro order store bestRate bestIdx c
    exact ⟨by simp [search_rounds], by simp [search_rounds], by simp [search_rounds],
      by simp [search_rounds], by simp [search_rounds]⟩
  | succ m ih =>
    intro order store bestRate bestIdx c
    have hmul : (m + 1) * order.length = m * order.length + order.length := by ring
    have hle : order.length ≤ (m + 1) * order.length := by
      calc order.length = 1 * order.length := (one_mul _).symm
        _ ≤ (m + 1) * order.length := Nat.mul_le_mul_right _ (by omega)
    unfold search_rounds
    dsimp only
    have hlen : (sortByRateDesc (fun i => (store i).success_rate) order).length =
        order.length := sortByRateDesc_length _ _
    have hin := search_inner_counters O G jl
      (sortByRateDesc (fun i => (store i).success_rate) order) store bestRate bestIdx c
    rw [hlen] at hin
    rcases hrun : search_inner O G jl (sortByRateDesc (fun i => (store i).success_rate) order)
        store bestRate bestIdx c with ⟨res, c₁⟩
    have hc₁ := congrArg Prod.snd hrun
    dsimp only at hc₁
    rw [hc₁] at hin
    cases res with
    | error e =>
      dsimp only
      rcases hin with ⟨s1, s2, s3, s4, s5⟩
      refine ⟨?_, ?_, ?_, ?_, ?_⟩ <;> (dsimp only; linarith)
    | ok triple =>
      rcases triple with ⟨store₁, br₁, bi₁⟩
      dsimp only
      split
      · rcases hin with ⟨s1, s2, s3, s4, s5⟩
        refine ⟨?_, ?_, ?_, ?_, ?_⟩ <;> (dsimp only; linarith)
      · have hrec := ih (sortByRateDesc (fun i => (store i).success_rate) order) store₁ br₁ bi₁ c₁
        rw [hlen] at hrec
        rcases hin with ⟨s1, s2, s3, s4, s5⟩
        rcases hrec with ⟨r1, r2, r3, r4, r5⟩
        refine ⟨?_, ?_, ?_, ?_, ?_⟩ <;> (dsimp only; linarith)

theorem solution_search_counters (O : Oracles) (G jl : Nat) (task : Task)
    (bs : List BaseSolution) (B : Nat) (c : Counters) :
    (solution_search O G jl task bs B c).2.tests ≤ c.tests + B * bs.length ∧
      (solution_search O G jl task bs B c).2.critiques ≤ c.critiques + B * bs.length ∧
      (solution_search O G jl task bs B c).2.gens ≤ c.gens + B * bs.length ∧
      (solution_search O G jl task bs B c).2.judgeSols ≤ c.judgeSols + B * bs.length ∧
      (solution_search O G jl task bs B c).2.judgeCodes ≤ c.judgeCodes + B * bs.length := by
  unfold solution_search
  dsimp only
  split
  · exact ⟨by dsimp only; omega, by dsimp only; omega, by dsimp only; omega,
      by dsimp only; omega, by dsimp only; omega⟩
  · have hrounds := search_rounds_counters O G jl B
      (List.range bs.length)
      (fun i => Solution.ofBase (bs.getD i ⟨"", ""⟩)) (-1) 0 c
    rw [List.length_range] at hrounds
    rcases hrun : search_rounds O G jl B (List.range bs.length)
        (fun i => Solution.ofBase (bs.getD i ⟨"", ""⟩)) (-1) 0 c with ⟨res, c₁⟩
    have hc₁ := congrArg Prod.snd hrun
    dsimp only at hc₁
    rw [hc₁] at hrounds
    cases res with
    | error e => exact hrounds
    | ok triple =>
      rcases triple with ⟨store₁, br₁, bi₁⟩
      exact hrounds

theorem generation_attempts_all_fail {O : Oracles} (hp : ∀ s, O.parseCode s = none)
    (k : Nat) (sol : Solution) :
    ∀ (n j : Nat), generation_attempts O k sol j n = .error .developerGenerationError := by
  intro n
  induction n with
  | zero => intro j; rfl
  | succ m ih =>
    intro j
    unfold generation_attempts
    rw [hp]
    exact ih (j + 1)

theorem solve_solution_gen_fail (O : Oracles) (G : Nat) (hp : ∀ s, O.parseCode s = none)
    (sol : Solution) (c : Counters) :
    (solve_solution O G 0 sol c).1 = .error .developerGenerationError := by
  unfold solve_solution solve_solution_prejudge
  simp only [show (0 : Nat) ≠ 2 by omega, if_neg, if_false]
  unfold generate_solution_code
  rw [generation_attempts_all_fail hp]

theorem analyze_ok_of_extract (O : Oracles) (sol : Solution) (c : Counters)
    (hx : (O.critiqueExtract c.critiques).isSome = true) :
    ∃ sol₂, (analyze_test_failures O sol c).1 = .ok sol₂ := by
  unfold analyze_test_failures
  dsimp only
  split
  · exact ⟨_, rfl⟩
  · rcases Option.isSome_iff_exists.mp hx with ⟨bs, hbs⟩
    rw [hbs]
    exact ⟨_, rfl⟩

theorem repair_loop_gen_fail (O : Oracles) (G : Nat) (d : String) (m : Nat)
    (sol : Solution) (c : Counters)
    (hp : ∀ s, O.parseCode s = none)
    (hr : ∀ k, O.testRate k ≠ 1)
    (hx : ∀ k, (O.critiqueExtract k).isSome = true)
    (hh : sol.solution_history ≠ []) :
    (subtasks_repair_loop O G d (m + 1) sol c).1 = .error .developerGenerationError := by
  unfold subtasks_repair_loop
  rcases hlast : sol.solution_history.getLast? with - | entry
  · exact absurd (List.getLast?_eq_none_iff.mp hlast) hh
  · dsimp only
    rw [if_neg (hr c.tests)]
    rcases hA : analyze_test_failures O
        (updateBest sol entry.content (O.testRate c.tests))
        { c with tests := c.tests + 1 } with ⟨res, c₂⟩
    rcases analyze_ok_of_extract O
        (updateBest sol entry.content (O.testRate c.tests))
        { c with tests := c.tests + 1 } (hx _) with ⟨sol₂, hok⟩
    rw [hA] at hok
    dsimp only at hok
    subst hok
    dsimp only
    unfold generate_solution_code
    rw [generation_attempts_all_fail hp]

theorem solve_subtasks_repair_gen_fail {O : Oracles} {G B : Nat} {task : Task}
    {skeleton joined : String} {c : Counters}
    (hp : ∀ s, O.parseCode s = none)
    (hr : ∀ k, O.testRate k ≠ 1)
    (hx : ∀ k, (O.critiqueExtract k).isSome = true)
    (hB : 1 ≤ B) :
    (solve_subtasks_repair O G B task skeleton joined c).1 =
      .error .developerGenerationError := by
  obtain ⟨m, rfl⟩ : ∃ m, B = m + 1 := ⟨B - 1, by omega⟩
  unfold solve_subtasks_repair
  dsimp only
  have hloop := repair_loop_gen_fail O G task.definition m
    { context := task.definition, propose_solution := skeleton,
      best_code := joined, success_rate := 0,
      solution_history := [HistEntry.mk "developer" joined] }
    c hp hr hx (by simp)
  rcases hL : subtasks_repair_loop O G task.definition (m + 1)
      { context := task.definition, propose_solution := skeleton,
        best_code := joined, success_rate := 0,
        solution_history := [HistEntry.mk "developer" joined] } c with ⟨res, c₁⟩
  rw [hL] at hloop
  dsimp only at hloop
  subst hloop
  rfl

theorem search_inner_gen_fail (O : Oracles) (G : Nat)
    (hp : ∀ s, O.parseCode s = none) (i : Nat) (rest : List Nat)
    (store : Nat → Solution) (bestRate : Rat) (bestIdx : Nat) (c : Counters) :
    (search_inner O G 0 (i :: rest) store bestRate bestIdx c).1 =
      .error .developerGenerationError := by
  unfold search_inner
  have hfail := solve_solution_gen_fail O G hp (store i) c
  rcases hs : solve_solution O G 0 (store i) c with ⟨res, c₁⟩
  rw [hs] at hfail
  dsimp only at hfail
  subst hfail
  rfl

theorem solution_search_gen_fail {O : Oracles} {G : Nat} {task : Task}
    {bs : List BaseSolution} {B : Nat} {c : Counters}
    (hp : ∀ s, O.parseCode s = none) (hB : 1 ≤ B) (hbs : bs ≠ []) :
    (solution_search O G 0 task bs B c).1 = .error .developerGenerationError := by
  obtain ⟨m, rfl⟩ : ∃ m, B = m + 1 := ⟨B - 1, by omega⟩
  unfold solution_search
  dsimp only
  rw [if_neg (fun h0 : bs.length = 0 => hbs (List.length_eq_zero.mp h0))]
  unfold search_rounds
  dsimp only
  rcases hsort : sortByRateDesc
      (fun i => (Solution.ofBase (bs.getD i ⟨"", ""⟩)).success_rate)
      (List.range bs.length) with - | ⟨i, rest⟩
  · exfalso
    refine sortByRateDesc_ne_nil (List.range bs.length) ?_ hsort
    have hlen0 : bs.length ≠ 0 := fun h0 => hbs (List.length_eq_zero.mp h0)
    simpa [List.range_eq_nil] using hlen0
  · have hfail := search_inner_gen_fail O G hp i rest
      (fun i => Solution.ofBase (bs.getD i ⟨"", ""⟩)) (-1) 0 c
    rcases hs : search_inner O G 0 (i :: rest)
        (fun i => Solution.ofBase (bs.getD i ⟨"", ""⟩)) (-1) 0 c with ⟨res, c₁⟩
    rw [hs] at hfail
    dsimp only at hfail
    subst hfail
    rfl

theorem run_tests_fix_loop_ok {qaParse : String → Option String} {fixResp : Nat → String}
    {testCode : String} (hp : qaParse testCode ≠ none) :
    ∀ (n k : Nat), run_tests_fix_loop qaParse fixResp k n testCode = .ok testCode := by
  intro n
  induction n with
  | zero => intro k; rfl
  | succ m ih =>
    intro k
    unfold run_tests_fix_loop
    rcases hq : qaParse testCode with - | parsed
    · exact absurd hq hp
    · exact ih k

/-! ## Claims -/

/-- C10 counterexample: the claim fails for an implementation string
whose once-substituted combined text does not pass `parse_code`.  On the
harness `"H…T"` (which contains the placeholder) with implementation
`"X"`, the combined text `"HXT"` fails the parse check, so the fix loop
of `Carlos.run_tests` (qa.py lines 215-238) replaces it with the parsed
LLM repair `"FIX"`; the executed source is then
`raw.replace(ph, "FIX") = "HFIXT"` and not the double substitution
`"HHXTT"` that the claim predicts for every implementation string. -/
theorem C10_single_substitution_counterexample :
    pyContains sampleSuite.test_code_raw implementationPlaceholder = true ∧
    run_tests_executed_source cexQaParse cexFixResp 2 sampleSuite "X" = .ok "HFIXT" ∧
    pyReplace sampleSuite.test_code_raw implementationPlaceholder
      (pyReplace sampleSuite.test_code_raw implementationPlaceholder "X") = "HHXTT" ∧
    ("HFIXT" : String) ≠ "HHXTT" :=
  ⟨rfl, rfl, rfl, by decide⟩

/-- C10 (amended): the program that `Carlos.run_tests` finally hands to
`run_tests_parallel` for execution is the double substitution
`raw.replace(ph, raw.replace(ph, impl))` — `run_tests` substitutes once
(qa.py line 212) and `run_tests_parallel` substitutes the whole combined
text into a fresh copy of the harness again (qa.py line 154), so the
executed source contains the harness text twice — (1) whenever the
once-substituted combined text passes `parse_code`, and (2) always when
`retry_attempts = 0`, since the fix loop then never runs.  (3) When the
combined text fails `parse_code` and `retry_attempts ≥ 1`, the fix loop
installs the parsed LLM repair instead, and the executed source is that
repaired code substituted once into the fresh harness — not the double
substitution of the original implementation. -/
theorem C10_run_tests_substitution_cases (qaParse : String → Option String)
    (fixResp : Nat → String) (retryAttempts : Nat) (suite : TestSuiteComplete)
    (implementation : String) :
    (qaParse (pyReplace suite.test_code_raw implementationPlaceholder implementation) ≠
        none →
      run_tests_executed_source qaParse fixResp retryAttempts suite implementation =
        .ok (pyReplace suite.test_code_raw implementationPlaceholder
          (pyReplace suite.test_code_raw implementationPlaceholder implementation))) ∧
    (retryAttempts = 0 →
      run_tests_executed_source qaParse fixResp retryAttempts suite implementation =
        .ok (pyReplace suite.test_code_raw implementationPlaceholder
          (pyReplace suite.test_code_raw implementationPlaceholder implementation))) ∧
    (∀ fixedCode,
      qaParse (pyReplace suite.test_code_raw implementationPlaceholder implementation) =
        none →
      qaParse (fixResp 0) = some fixedCode →
      qaParse fixedCode ≠ none →
      1 ≤ retryAttempts →
      run_tests_executed_source qaParse fixResp retryAttempts suite implementation =
        .ok (pyReplace suite.test_code_raw implementationPlaceholder fixedCode)) := by
  refine ⟨?_, ?_, ?_⟩
  · intro hparse
    unfold run_tests_executed_source
    dsimp only
    rw [run_tests_fix_loop_ok hparse]
    rfl
  · intro h0
    subst h0
    unfold run_tests_executed_source
    dsimp only
    rfl
  · intro fixedCode hnone hfix hfixed hR
    obtain ⟨m, rfl⟩ : ∃ m, retryAttempts = m + 1 := ⟨retryAttempts - 1, by omega⟩
    unfold run_tests_executed_source
    dsimp only
    unfold run_tests_fix_loop
    rw [hnone, hfix]
    dsimp only
    rw [run_tests_fix_loop_ok hfixed]
    rfl

/-- Witness for C10 (amended): on the concrete harness `"H…T"` with
implementation `"X"`, the parse-ok path executes the double substitution
(`"HHXTT"`, harness text twice) and the repair path executes the repaired
code substituted once (`"HFIXT"`). -/
theorem C10_run_tests_substitution_cases_witness :
    run_tests_executed_source (fun _ => some "ok") (fun _ => "") 2 sampleSuite "X" =
      .ok (pyReplace sampleSuite.test_code_raw implementationPlaceholder
        (pyReplace sampleSuite.test_code_raw implementationPlaceholder "X")) ∧
    run_tests_executed_source cexQaParse cexFixResp 2 sampleSuite "X" =
      .ok (pyReplace sampleSuite.test_code_raw implementationPlaceholder "FIX") :=
  ⟨(C10_run_tests_substitution_cases (fun _ => some "ok") (fun _ => "") 2 sampleSuite
      "X").1 (by intro h; simp at h),
    (C10_run_tests_substitution_cases cexQaParse cexFixResp 2 sampleSuite "X").2.2
      "FIX" rfl rfl (by decide) (by omega)⟩

/-- C9: when the reasoning response of `Thifany._decide_plan_type` has no
extractable `FINAL DECISION` marker (the regex of
`_extract_final_decision` yields nothing valid), the decision comes from
the secondary extraction response: `subtasks` exactly when that response
mentions `"subtasks"` (lower-cased), `solutions` otherwise; the step
always returns a `PlanResponseModel` (it is a total function — no
exception escapes). -/
theorem C9_decision_fallback (resp1 resp2 : String)
    (h : extract_final_decision resp1 = none) :
    decide_plan_type resp1 resp2 =
      { reasoning := some resp1
        result_type :=
          if pyContains (pyLower resp2) "subtasks" then .subtasks else .solutions } ∧
    (pyContains (pyLower resp2) "subtasks" = false →
      (decide_plan_type resp1 resp2).result_type = .solutions) := by
  have hmain : decide_plan_type resp1 resp2 =
      { reasoning := some resp1
        result_type :=
          if pyContains (pyLower resp2) "subtasks" then ResultType.subtasks
          else ResultType.solutions } := by
    unfold decide_plan_type
    rw [h]
    cases hb : pyContains resp1 "FINAL DECISION" <;> rfl
  refine ⟨hmain, fun hfalse => ?_⟩
  rw [hmain]
  simp [hfalse]

/-- Witness for C9: a reasoning text without a marker and a secondary
response that does not mention `subtasks` yield the `solutions` default. -/
theorem C9_decision_fallback_witness :
    decide_plan_type "no marker here" "nothing relevant" =
      { reasoning := some "no marker here"
        result_type :=
          if pyContains (pyLower "nothing relevant") "subtasks" then ResultType.subtasks
          else ResultType.solutions } ∧
    (decide_plan_type "no marker here" "nothing relevant").result_type =
      ResultType.solutions :=
  ⟨(C9_decision_fallback "no marker here" "nothing relevant" rfl).1,
    (C9_decision_fallback "no marker here" "nothing relevant" rfl).2 rfl⟩

/-- C3: at final depth (`is_final = true`), `Thifany.plan` skips the
decision and the subtask branch entirely: whatever the LLM responses are,
every returned plan is a `solutions` plan and never a `subtasks` plan. -/
theorem C3_final_depth_solutions (PO : PlanOracle) (pr : PlanResponse)
    (h : plan PO true = .ok pr) :
    pr.result_type = .solutions ∧ pr.subtasks = none ∧ pr.solutions ≠ none := by
  unfold plan plan_solutions_step at h
  rcases hs : PO.solutionsExtract with - | ps
  · rw [hs] at h; simp at h
  · rw [hs] at h
    simp only [if_true, Except.ok.injEq] at h
    subst h
    exact ⟨rfl, rfl, by simp⟩

/-- Witness for C3 with a concrete oracle (even one whose subtask branch
would offer two subtasks). -/
theorem C3_final_depth_solutions_witness :
    (PlanResponse.mk none .solutions none (some [⟨"c", "p"⟩])).result_type =
        ResultType.solutions ∧
      (PlanResponse.mk none .solutions none (some [⟨"c", "p"⟩])).subtasks = none ∧
      (PlanResponse.mk none .solutions none (some [⟨"c", "p"⟩])).solutions ≠ none :=
  C3_final_depth_solutions ⟨"r1", "r2", some ⟨"sk", []⟩, some ⟨"sk", [⟨"c", "p"⟩]⟩⟩ _ rfl

/-- C4: every `PlanResponse` produced by `Thifany.plan` populates exactly
one of the `subtasks`/`solutions` branches: the `subtasks` branch leaves
`solutions` at `None` and the `solutions` branch leaves `subtasks` at
`None`; never both, never neither. -/
theorem C4_plan_exclusivity (PO : PlanOracle) (isFinal : Bool) (pr : PlanResponse)
    (h : plan PO isFinal = .ok pr) :
    (pr.subtasks ≠ none ∧ pr.solutions = none) ∨
      (pr.subtasks = none ∧ pr.solutions ≠ none) := by
  have hsol : ∀ q : PlanResponse, plan_solutions_step PO = .ok q →
      (q.subtasks ≠ none ∧ q.solutions = none) ∨
        (q.subtasks = none ∧ q.solutions ≠ none) := by
    intro q hq
    unfold plan_solutions_step at hq
    rcases hs : PO.solutionsExtract with - | ps
    · rw [hs] at hq; simp at hq
    · rw [hs] at hq
      simp only [Except.ok.injEq] at hq
      subst hq
      exact Or.inr ⟨rfl, by simp⟩
  unfold plan at h
  cases isFinal with
  | true => exact hsol pr h
  | false =>
    simp only [Bool.false_eq_true, if_false] at h
    split at h
    · split at h
      · simp at h
      · split at h
        · simp only [Except.ok.injEq] at h
          subst h
          exact Or.inl ⟨by simp, rfl⟩
        · exact hsol pr h
    · exact hsol pr h

/-- Witness for C4 at a concrete oracle and `is_final = false` on the
subtasks branch (two subtasks offered, decision text forces `subtasks`). -/
theorem C4_plan_exclusivity_witness :
    ((some [BaseTask.mk "d1" "f1" [] "dod1" [], BaseTask.mk "d2" "f2" [] "dod2" []] :
        Option (List BaseTask)) ≠ none ∧
      (none : Option (List BaseSolution)) = none) ∨
      ((some [BaseTask.mk "d1" "f1" [] "dod1" [], BaseTask.mk "d2" "f2" [] "dod2" []] :
        Option (List BaseTask)) = none ∧
      (none : Option (List BaseSolution)) ≠ none) :=
  C4_plan_exclusivity
    ⟨"FINAL DECISION: subtasks", "",
      some ⟨"sk", [⟨"d1", "f1", [], "dod1", []⟩, ⟨"d2", "f2", [], "dod2", []⟩]⟩,
      some ⟨"sk", [⟨"c", "p"⟩]⟩⟩
    false
    ⟨some "FINAL DECISION: subtasks", .subtasks,
      some [⟨"d1", "f1", [], "dod1", []⟩, ⟨"d2", "f2", [], "dod2", []⟩], none⟩
    rfl

/-- C1: in both repair loops (`solve_solution` step 5 and the
`solve_subtasks` loop), after every test execution the pair
`best_code`/`success_rate` is overwritten *together*, and exactly when
the new rate is `>=` the stored rate (`>=`, not `>`): (i) the update
step leaves the pair at the new values iff the new rate is at least the
stored one, (ii) the update is atomic — either both fields change or the
solution is untouched, (iii)/(iv) consequently the stored rate never
decreases across `solve_solution` and across the `solve_subtasks` repair
loop. -/
theorem C1_best_tracking_update :
    (∀ (s : Solution) (code : String) (r : Rat),
        ((updateBest s code r).success_rate = r ∧ (updateBest s code r).best_code = code) ↔
          s.success_rate ≤ r) ∧
    (∀ (s : Solution) (code : String) (r : Rat),
        updateBest s code r = s ∨
          updateBest s code r = { s with success_rate := r, best_code := code }) ∧
    (∀ (O : Oracles) (G jl : Nat) (sol : Solution) (c : Counters) (sol' : Solution)
        (c' : Counters), solve_solution O G jl sol c = (.ok sol', c') →
          sol.success_rate ≤ sol'.success_rate) ∧
    (∀ (O : Oracles) (G : Nat) (d : String) (rem : Nat) (sol : Solution) (c : Counters)
        (sol' : Solution) (c' : Counters),
        subtasks_repair_loop O G d rem sol c = (.ok sol', c') →
          sol.success_rate ≤ sol'.success_rate) := by
  refine ⟨?_, ?_, ?_, ?_⟩
  · intro s code r
    constructor
    · rintro ⟨h1, -⟩
      by_contra hlt
      rw [updateBest_success_rate, if_neg hlt] at h1
      exact hlt (le_of_eq h1)
    · intro hle
      unfold updateBest
      rw [if_pos hle]
      exact ⟨rfl, rfl⟩
  · intro s code r
    unfold updateBest
    split
    · exact Or.inr rfl
    · exact Or.inl rfl
  · intro O G jl sol c sol' c' h
    exact (solve_solution_ok_rate h).1
  · intro O G d rem sol c sol' c' h
    exact repair_loop_ok_mono h

/-- Witness for C1: the `updateBest` iff at a tied rate, one successful
`solve_solution` run (stored rate goes from the `-1.0` sentinel to `1`),
and one `solve_subtasks` repair-loop run (stored rate goes from `0` to
`1`). -/
theorem C1_best_tracking_update_witness :
    ((updateBest (Solution.ofBase ⟨"a", "b"⟩) "new" (-1)).success_rate = -1 ∧
      (updateBest (Solution.ofBase ⟨"a", "b"⟩) "new" (-1)).best_code = "new") ∧
    (Solution.ofBase ⟨"ctx", "plan"⟩).success_rate ≤
      (Solution.mk "ctx" "plan" "print(1)" 1
        [HistEntry.mk "developer" "print(1)"]).success_rate ∧
    (Solution.mk "d" "skel" "pc" 0 [HistEntry.mk "developer" "pc"]).success_rate ≤
      (Solution.mk "d" "skel" "pc" 1 [HistEntry.mk "developer" "pc"]).success_rate :=
  ⟨(C1_best_tracking_update.1 (Solution.ofBase ⟨"a", "b"⟩) "new" (-1)).mpr
      (by norm_num [Solution.ofBase]),
    C1_best_tracking_update.2.2.1 happyOracle 1 0 (Solution.ofBase ⟨"ctx", "plan"⟩)
      Counters.zero ⟨"ctx", "plan", "print(1)", 1, [HistEntry.mk "developer" "print(1)"]⟩
      ⟨1, 0, 1, 0, 0⟩ rfl,
    C1_best_tracking_update.2.2.2 happyOracle 1 "d" 0
      ⟨"d", "skel", "pc", 0, [HistEntry.mk "developer" "pc"]⟩ Counters.zero
      ⟨"d", "skel", "pc", 1, [HistEntry.mk "developer" "pc"]⟩ ⟨1, 0, 0, 0, 0⟩ rfl⟩

/-- C2 counterexample: at retry budget `B = 0` (`remaining = 0`) the
`solve_subtasks` repair loop still performs one test execution and one
critique call — two collaborator calls, which is more than `B = 0` and
more than any constant multiple of `B = 0`, so "at most B (or a small
constant multiple of B) collaborator calls" is false as stated. -/
theorem C2_budget_zero_counterexample :
    (subtasks_repair_loop failOracle 1 "d" 0
        ⟨"d", "skel", "pc", 0, [HistEntry.mk "developer" "pc"]⟩ Counters.zero).2.tests = 1 ∧
    (subtasks_repair_loop failOracle 1 "d" 0
        ⟨"d", "skel", "pc", 0, [HistEntry.mk "developer" "pc"]⟩ Counters.zero).2.critiques = 1 :=
  ⟨rfl, rfl⟩

/-- C2 (amended): both loops are total functions of a bounded structure
and their collaborator-call counts are linear in the budget `B` with a
`+ 1` offset: the `solve_subtasks` repair loop performs at most `B + 1`
test executions, at most `B + 1` critique calls and at most `B` code
generations; `solution_search` performs at most `B·n` calls of each kind
for `n` candidate solutions.  So neither loop can iterate indefinitely,
regardless of collaborator output. -/
theorem C2_bounded_collaborator_calls :
    (∀ (O : Oracles) (G : Nat) (d : String) (B : Nat) (sol : Solution) (c : Counters),
        (subtasks_repair_loop O G d B sol c).2.tests ≤ c.tests + (B + 1) ∧
        (subtasks_repair_loop O G d B sol c).2.critiques ≤ c.critiques + (B + 1) ∧
        (subtasks_repair_loop O G d B sol c).2.gens ≤ c.gens + B) ∧
    (∀ (O : Oracles) (G jl : Nat) (task : Task) (bs : List BaseSolution) (B : Nat)
        (c : Counters),
        (solution_search O G jl task bs B c).2.tests ≤ c.tests + B * bs.length ∧
        (solution_search O G jl task bs B c).2.critiques ≤ c.critiques + B * bs.length ∧
        (solution_search O G jl task bs B c).2.gens ≤ c.gens + B * bs.length ∧
        (solution_search O G jl task bs B c).2.judgeSols ≤ c.judgeSols + B * bs.length ∧
        (solution_search O G jl task bs B c).2.judgeCodes ≤ c.judgeCodes + B * bs.length) := by
  constructor
  · intro O G d B sol c
    rcases repair_loop_counters O G d B sol c with ⟨h1, h2, h3, -, -⟩
    exact ⟨h1, h2, h3⟩
  · intro O G jl task bs B c
    exact solution_search_counters O G jl task bs B c

/-- C5 counterexample: `solution_search` with `max_retry = 0` on a fresh
task (stored rating `0.0`) ends without any attempt; the final
`task.best_solution_rating = best_solution.success_rate` assignment
(orchestrator.py line 200) then overwrites the stored `0.0` with the
untried sentinel `-1.0` — the rating *decreases*, and it is overwritten
by a value strictly below the stored one. -/
theorem C5_rating_counterexample :
    (solution_search happyOracle 1 0 sampleTask [⟨"a", "b"⟩] 0 Counters.zero).1 =
      .ok { sampleTask with best_solution := "b", best_solution_rating := -1, code := "" } ∧
    (-1 : Rat) < sampleTask.best_solution_rating :=
  ⟨rfl, by norm_num [sampleTask]⟩

/-- C5 (amended): the rating is monotonically non-decreasing provided the
pass makes at least one attempt.  (a) For `solution_search` with
`max_retry ≥ 1`, at least one candidate, executor rates in `[0, 1]` and a
fresh task (rating `0.0`), the returned rating is `≥` the stored one;
(b) the `solve_subtasks` repair pass always returns a rating `≥ 0.0`,
hence `≥` the fresh task's stored rating, for every `max_retry` including
0.  At `max_retry = 0`, `solution_search` instead installs the `-1.0`
sentinel (see the counterexample). -/
theorem C5_rating_monotonic :
    (∀ (O : Oracles) (G jl : Nat) (task : Task) (bs : List BaseSolution) (B : Nat)
        (c : Counters) (task' : Task) (c' : Counters),
        (∀ k, 0 ≤ O.testRate k) → 1 ≤ B → bs ≠ [] →
        task.best_solution_rating = 0 →
        solution_search O G jl task bs B c = (.ok task', c') →
        task.best_solution_rating ≤ task'.best_solution_rating) ∧
    (∀ (O : Oracles) (G B : Nat) (task : Task) (skeleton joined : String) (c : Counters)
        (task' : Task) (c' : Counters),
        solve_subtasks_repair O G B task skeleton joined c = (.ok task', c') →
        0 ≤ task'.best_solution_rating ∧
          (task.best_solution_rating = 0 →
            task.best_solution_rating ≤ task'.best_solution_rating)) := by
  constructor
  · intro O G jl task bs B c task' c' hO hB hbs h0 h
    rw [h0]
    exact solution_search_ok_nonneg hO hB hbs h
  · intro O G B task skeleton joined c task' c' h
    unfold solve_subtasks_repair at h
    dsimp only at h
    split at h
    · simp at h
    · rename_i sol' c₁ heq
      simp only [Prod.mk.injEq, Except.ok.injEq] at h
      obtain ⟨h1, -⟩ := h
      subst h1
      have hmono := repair_loop_ok_mono heq
      dsimp only at hmono ⊢
      exact ⟨hmono, fun h0 => by rw [h0]; exact hmono⟩

/-- Witness for C5 (amended): a one-candidate search at `B = 1` with the
all-passing collaborator keeps the fresh rating non-decreasing
(`0 → 1`), and a subtask repair pass returns rating `1 ≥ 0`. -/
theorem C5_rating_monotonic_witness :
    sampleTask.best_solution_rating ≤ (1 : Rat) ∧ (0 : Rat) ≤ (1 : Rat) :=
  ⟨C5_rating_monotonic.1 happyOracle 1 0 sampleTask [⟨"ctx", "plan"⟩] 1 Counters.zero
      ⟨"sum two numbers", "sum_two", "returns the sum", "", "plan", 1, "print(1)"⟩
      ⟨1, 0, 1, 0, 0⟩ (fun k => by norm_num [happyOracle]) (le_refl 1)
      (by simp) rfl rfl,
    (C5_rating_monotonic.2 happyOracle 1 0 sampleTask "skel" "joined" Counters.zero
      ⟨"sum two numbers", "sum_two", "returns the sum", "", "skel", 1, "joined"⟩
      ⟨1, 0, 0, 0, 0⟩ rfl).1⟩

/-- C6 counterexample: when no developer response parses within the
generation budget, `solution_search` does *not* return a Task with the
best-known result — the `DeveloperGenerationError` raised by
`Ellian.generate_solution_code` (developer/__init__.py line 52)
propagates uncaught through `solve_solution` and `solution_search`
(orchestrator.py has no try/except). -/
theorem C6_generation_failure_counterexample :
    (solution_search failOracle 1 0 sampleTask [⟨"a", "b"⟩] 1 Counters.zero).1 =
      .error .developerGenerationError :=
  rfl

/-- C6 (amended): exhausting the generator's bounded retry budget raises
`DeveloperGenerationError`, and that exception propagates out of
`generate_solution_code`, `solve_solution`, `solution_search` and the
`solve_subtasks` repair pass instead of being recorded as a
`success_rate` of `0.0` there; no Task is returned.  (It is caught only
by the out-of-core benchmark driver, src/modules/benchmark.py line 217,
which records the whole question as `success_rate 0.0`.) -/
theorem C6_generation_failure_propagates :
    (∀ (O : Oracles) (G : Nat) (sol : Solution) (c : Counters),
        (∀ s, O.parseCode s = none) →
        (generate_solution_code O G sol c).1 = .error .developerGenerationError) ∧
    (∀ (O : Oracles) (G : Nat) (sol : Solution) (c : Counters),
        (∀ s, O.parseCode s = none) →
        (solve_solution O G 0 sol c).1 = .error .developerGenerationError) ∧
    (∀ (O : Oracles) (G : Nat) (task : Task) (bs : List BaseSolution) (B : Nat)
        (c : Counters),
        (∀ s, O.parseCode s = none) → 1 ≤ B → bs ≠ [] →
        (solution_search O G 0 task bs B c).1 = .error .developerGenerationError) ∧
    (∀ (O : Oracles) (G B : Nat) (task : Task) (skeleton joined : String) (c : Counters),
        (∀ s, O.parseCode s = none) → (∀ k, O.testRate k ≠ 1) →
        (∀ k, (O.critiqueExtract k).isSome = true) → 1 ≤ B →
        (solve_subtasks_repair O G B task skeleton joined c).1 =
          .error .developerGenerationError) := by
  refine ⟨?_, ?_, ?_, ?_⟩
  · intro O G sol c hp
    unfold generate_solution_code
    rw [generation_attempts_all_fail hp]
  · intro O G sol c hp
    exact solve_solution_gen_fail O G hp sol c
  · intro O G task bs B c hp hB hbs
    exact solution_search_gen_fail hp hB hbs
  · intro O G B task skeleton joined c hp hr hx hB
    exact solve_subtasks_repair_gen_fail hp hr hx hB

/-- Witness for C6 (amended) at the concrete always-failing collaborator. -/
theorem C6_generation_failure_propagates_witness :
    (generate_solution_code failOracle 1 (Solution.ofBase ⟨"a", "b"⟩) Counters.zero).1 =
        .error .developerGenerationError ∧
      (solve_solution failOracle 1 0 (Solution.ofBase ⟨"a", "b"⟩) Counters.zero).1 =
        .error .developerGenerationError ∧
      (solve_subtasks_repair failOracle 1 1 sampleTask "skel" "joined" Counters.zero).1 =
        .error .developerGenerationError :=
  ⟨C6_generation_failure_propagates.1 failOracle 1 (Solution.ofBase ⟨"a", "b"⟩)
      Counters.zero (fun s => rfl),
    C6_generation_failure_propagates.2.1 failOracle 1 (Solution.ofBase ⟨"a", "b"⟩)
      Counters.zero (fun s => rfl),
    C6_generation_failure_propagates.2.2.2 failOracle 1 1 sampleTask "skel" "joined"
      Counters.zero (fun s => rfl) (fun k => by norm_num [failOracle])
      (fun k => rfl) (le_refl 1)⟩

/-- C7 counterexample: `OllamaHandler.generate_response` with a
structured-output schema runs `model_validate_json` with no exception
handler (ollama.py line 104); on a non-validating model output the call
raises a `ValidationError` instead of returning the raw text. -/
theorem C7_schema_failure_counterexample :
    generate_response_schema Judgment (fun _ => none) "not a judgment" =
      .error .validationError :=
  rfl

/-- C7 (amended): `generate_response` returns the raw message content
only when no schema is requested; with a schema it returns the validated
object on success and *raises* (propagates the `ValidationError`) on a
failed validation — the raw-text fallback described by the spec is not in
this adapter. -/
theorem C7_schema_validation_behavior (α : Type) (validate : String → Option α)
    (content : String) :
    (validate content = none →
      generate_response_schema α validate content = .error .validationError) ∧
    (∀ v, validate content = some v →
      generate_response_schema α validate content = .ok ⟨v⟩) ∧
    generate_response_text content = ⟨content⟩ := by
  refine ⟨?_, ?_, rfl⟩
  · intro hnone
    unfold generate_response_schema
    rw [hnone]
  · intro v hv
    unfold generate_response_schema
    rw [hv]

/-- Witness for C7 (amended): one failing and one succeeding validation. -/
theorem C7_schema_validation_behavior_witness :
    generate_response_schema Judgment (fun _ => none) "bad output" =
        .error .validationError ∧
      generate_response_schema Judgment (fun _ => some ⟨true, "fb"⟩) "good output" =
        .ok ⟨⟨true, "fb"⟩⟩ :=
  ⟨(C7_schema_validation_behavior Judgment (fun _ => none) "bad output").1 rfl,
    (C7_schema_validation_behavior Judgment (fun _ => some ⟨true, "fb"⟩) "good output").2.1
      ⟨true, "fb"⟩ rfl⟩

/-- C8 counterexample: when the critique text carries no
`<context>`/`<propose_solution>` tags *and* the secondary extraction
call's output fails `BaseSolution` validation,
`Will.analyze_test_failures` raises (the `ValidationError` from
`generate_response` propagates, judge/__init__.py lines 120-125) — the
raw critique text is *not* used verbatim as the two fields. -/
theorem C8_critique_failure_counterexample :
    (analyze_test_failures noExtractOracle (Solution.ofBase ⟨"c0", "p0"⟩)
        Counters.zero).1 = .error .validationError :=
  rfl

/-- C8 (amended): `analyze_test_failures` appends the raw critique to the
history and then (a) uses the two tag-extracted fields when both regexes
match, (b) otherwise uses the two fields of the secondary structured
extraction when it validates, and (c) otherwise raises the validation
error; there is no verbatim-text third tier. -/
theorem C8_critique_two_tier_fallback (O : Oracles) (sol : Solution) (c : Counters) :
    (∀ ctx ps, searchTag "context" (O.critiqueText c.critiques) = some ctx →
      searchTag "propose_solution" (O.critiqueText c.critiques) = some ps →
      (analyze_test_failures O sol c).1 = .ok
        { sol with
            solution_history := sol.solution_history ++
              [HistEntry.mk "judge" (O.critiqueText c.critiques)]
            context := ctx
            propose_solution := ps }) ∧
    ((searchTag "context" (O.critiqueText c.critiques) = none ∨
        searchTag "propose_solution" (O.critiqueText c.critiques) = none) →
      ∀ bs, O.critiqueExtract c.critiques = some bs →
      (analyze_test_failures O sol c).1 = .ok
        { sol with
            solution_history := sol.solution_history ++
              [HistEntry.mk "judge" (O.critiqueText c.critiques)]
            context := bs.context
            propose_solution := bs.propose_solution }) ∧
    ((searchTag "context" (O.critiqueText c.critiques) = none ∨
        searchTag "propose_solution" (O.critiqueText c.critiques) = none) →
      O.critiqueExtract c.critiques = none →
      (analyze_test_failures O sol c).1 = .error .validationError) := by
  refine ⟨?_, ?_, ?_⟩
  · intro ctx ps hctx hps
    unfold analyze_test_failures
    dsimp only
    rw [hctx, hps]
  · intro hno bs hbs
    unfold analyze_test_failures
    dsimp only
    rcases h1 : searchTag "context" (O.critiqueText c.critiques) with - | v1 <;>
      rcases h2 : searchTag "propose_solution" (O.critiqueText c.critiques) with - | v2 <;>
      simp only [hbs] <;> try rfl
    rcases hno with hno | hno
    · rw [h1] at hno; exact absurd hno (by simp)
    · rw [h2] at hno; exact absurd hno (by simp)
  · intro hno hext
    unfold analyze_test_failures
    dsimp only
    rcases h1 : searchTag "context" (O.critiqueText c.critiques) with - | v1 <;>
      rcases h2 : searchTag "propose_solution" (O.critiqueText c.critiques) with - | v2 <;>
      simp only [hext] <;> try rfl
    rcases hno with hno | hno
    · rw [h1] at hno; exact absurd hno (by simp)
    · rw [h2] at hno; exact absurd hno (by simp)

/-- Witness for C8 (amended): the no-tags/no-extraction case raises, and
the tagged case installs the extracted fields. -/
theorem C8_critique_two_tier_fallback_witness :
    (analyze_test_failures noExtractOracle (Solution.ofBase ⟨"c1", "p1"⟩)
        Counters.zero).1 = .error .validationError ∧
      (analyze_test_failures happyOracle (Solution.ofBase ⟨"c1", "p1"⟩)
          Counters.zero).1 = .ok
        { Solution.ofBase ⟨"c1", "p1"⟩ with
            solution_history := (Solution.ofBase ⟨"c1", "p1"⟩).solution_history ++
              [HistEntry.mk "judge" (happyOracle.critiqueText 0)]
            context := "c2"
            propose_solution := "p2" } :=
  ⟨(C8_critique_two_tier_fallback noExtractOracle (Solution.ofBase ⟨"c1", "p1"⟩)
        Counters.zero).2.2 (Or.inl rfl) rfl,
    (C8_critique_two_tier_fallback happyOracle (Solution.ofBase ⟨"c1", "p1"⟩)
        Counters.zero).1 "c2" "p2" rfl rfl⟩

end TgBench
